import Mathlib

/-!
Verification development for the receipt-archiving pipeline of the
`ostickethelper` repository (`src/ostickethelper/archiver.py`).

The Python source is shallowly embedded: pure string/size computations become
Lean functions, and the stateful pipeline (`compress_image_to_pdf`,
`merge_pdfs`, `generate_receipt_pdf`) becomes explicit state passing over a
small filesystem model.  External libraries (Pillow, pikepdf, the `typst`
compiler) are modelled by the observable behaviour the source relies on:

* a file entry records its byte size, whether Pillow can decode it as an image
  (and the decoded image's mode/dimensions), whether its first five bytes are
  the `%PDF-` magic, whether pikepdf can open it (and its page list), and the
  ticket metadata it parses to when it is a `ticket.json`;
* the byte sizes produced by the external encoders (Pillow's PDF encoder at a
  given resolution/quality, pikepdf's `save`) and the pages of the compiled
  Typst cover are supplied by an `Env`/`Encoder` parameter, since the source
  never inspects those bytes, only their sizes and page counts.

Python exceptions become an explicit error type; every stateful operation
returns `(Except PyError α) × FS` so that the filesystem after a failed call
is still observable (needed to state "no partial output is written").
-/

namespace OTH

/-- The observable state of a Pillow image: colour mode and pixel dimensions
(`Image.open` gives `mode`, `width`, `height`; pixel data is never inspected
by the source except through re-encoding, which the `Encoder` models). -/
structure PilImageData where
  mode : String
  width : Nat
  height : Nat
  deriving DecidableEq, Repr

/-- A page of a PDF document.  `tag` identifies a page stored in a PDF file;
`image` is the single page produced by re-encoding a raster image. -/
inductive Page where
  | tag (s : String) (i : Nat)
  | image (img : PilImageData)
  deriving DecidableEq, Repr

/-- The fields of `ticket.json` that the archiver pipeline reads: the ordered
list of attachment filenames (`ticket_data.get("attachments", [])`).  The
remaining fields (id, user, created, subject, message) only feed the Typst
cover text, which is compiled by the external `typst` binary and is modelled
by the cover pages in `Env`. -/
structure TicketData where
  attachments : List String
  deriving DecidableEq, Repr

/-- Observable content of a file, as far as the archiver reads it. -/
structure FileEntry where
  /-- `path.stat().st_size`. -/
  size : Nat := 0
  /-- `some d` iff Pillow's `Image.open` + `verify` succeeds, with `d` the
  decoded mode and dimensions; `none` models an undecodable file. -/
  img : Option PilImageData := none
  /-- whether the first five bytes are the literal `%PDF-`. -/
  pdfMagic : Bool := false
  /-- `some pages` iff `pikepdf.Pdf.open` succeeds, giving the page list. -/
  pdfPages : Option (List Page) := none
  /-- `some t` iff `json.load` succeeds and yields ticket metadata `t`. -/
  ticket : Option TicketData := none
  deriving DecidableEq, Repr

/-- A filesystem path, as its list of components (the source only ever joins
relative paths with `/`). -/
abbrev FPath := List String

/-- Filesystem model: a set of existing directories and an association list
of files.  `writeFile` replaces any previous entry for the same path. -/
structure FS where
  dirs : List FPath
  files : List (FPath × FileEntry)
  deriving DecidableEq, Repr

def FS.lookupFile (fs : FS) (p : FPath) : Option FileEntry :=
  (fs.files.find? (fun e => e.1 == p)).map (fun e => e.2)

/-- `Path.exists()`: true for a directory or a file. -/
def FS.existsPath (fs : FS) (p : FPath) : Bool :=
  fs.dirs.contains p || (fs.lookupFile p).isSome

/-- Write (create or overwrite) the file at `p`. -/
def FS.writeFile (fs : FS) (p : FPath) (e : FileEntry) : FS :=
  { fs with files := (p, e) :: fs.files.filter (fun x => x.1 != p) }

/-- `mkdir(parents=True, exist_ok=True)`. -/
def FS.mkdir (fs : FS) (p : FPath) : FS :=
  { fs with dirs := p :: fs.dirs }

/-- `shutil.rmtree(p, ignore_errors=True)`: removes `p` and everything
beneath it. -/
def FS.removeSubtree (fs : FS) (p : FPath) : FS :=
  { dirs := fs.dirs.filter (fun d => !(List.isPrefixOf p d)),
    files := fs.files.filter (fun x => !(List.isPrefixOf p x.1)) }

/-- Render a path the way `str(Path(...))` does for relative paths. -/
def pathStr (p : FPath) : String :=
  String.intercalate "/" p

/-- `p.relative_to(base)` with the source's `try/except ValueError` fallback
to the full path (archiver.py lines 464-467 and 554-562). -/
def relativeTo (p base : FPath) : FPath :=
  if List.isPrefixOf base p then p.drop base.length else p

def lastComponent (p : FPath) : String :=
  p.getLast?.getD ""

/-- Python exceptions raised (directly or by the libraries used) on the code
paths modelled here. -/
inductive PyError where
  /-- `FileNotFoundError` (raised by the source itself, or by `stat`/`open`
  on a missing file). -/
  | fileNotFoundError (msg : String)
  /-- Pillow's `UnidentifiedImageError` on an undecodable image. -/
  | unidentifiedImageError (msg : String)
  /-- pikepdf's `PdfError` on an unreadable/corrupt PDF. -/
  | pikepdfError (msg : String)
  /-- `RuntimeError` from `compile_typst` on nonzero typst exit. -/
  | runtimeError (msg : String)
  /-- `json.JSONDecodeError` on unparseable `ticket.json`. -/
  | jsonDecodeError (msg : String)
  deriving DecidableEq, Repr

/-- Round `num / den` to the nearest integer, ties to even — the rounding
both of Python's `round` builtin and of `format(x, '.0f')` (on values the
binary float represents exactly; every quotient used in the theorems below
is a dyadic rational below 2^53, hence exact). -/
def roundHalfEven (num den : Nat) : Nat :=
  let q := num / den
  let r := num % den
  if den < 2 * r then q + 1
  else if 2 * r < den then q
  else if q % 2 == 0 then q else q + 1

/-- `_format_size` (archiver.py lines 144-151): bytes below 1024 are shown
as `N B`; below 1024² as `f"{size/1024:.0f} KB"`; otherwise as
`f"{size/(1024*1024):.1f} MB"`.  The float divisions by powers of two are
exact for sizes below 2^53, so `.0f`/`.1f` formatting is exactly
round-half-even of the rational quotient, which is what is computed here. -/
def _format_size (size_bytes : Nat) : String :=
  if size_bytes < 1024 then
    toString size_bytes ++ " B"
  else if size_bytes < 1024 * 1024 then
    toString (roundHalfEven size_bytes 1024) ++ " KB"
  else
    let tenths := roundHalfEven (size_bytes * 10) (1024 * 1024)
    toString (tenths / 10) ++ "." ++ toString (tenths % 10) ++ " MB"

/-- Index of the last `.` in a list of characters, if any (`str.rfind`). -/
def rfindDot : List Char → Option Nat
  | [] => none
  | c :: cs =>
    match rfindDot cs with
    | some i => some (i + 1)
    | none => if c = '.' then some 0 else none

/-- `PurePath.suffix` of a filename: the substring from the last dot on,
provided that dot is neither the first nor the last character; otherwise
the empty string (CPython's `pathlib` definition). -/
def pathSuffix (name : String) : String :=
  match rfindDot name.toList with
  | some i =>
    if 0 < i && i + 1 < name.toList.length then
      String.mk (name.toList.drop i)
    else ""
  | none => ""

/-- The known image-extension set of `_is_image_file` (archiver.py line 156). -/
def image_extensions : List String :=
  [".jpg", ".jpeg", ".png", ".gif", ".bmp", ".tiff", ".tif", ".webp"]

/-- Python's `str.lower()` as applied to filename suffixes (character-wise
lowercasing; the suffixes compared against are ASCII). -/
def strLower (s : String) : String :=
  String.mk (s.toList.map Char.toLower)

/-- `_is_image_file` (archiver.py lines 154-170).  The source takes a path
and reads the filesystem; the model receives the file's entry directly (the
caller has already looked it up), with `entry.img.isSome` standing for
"Pillow can open and verify the file". -/
def _is_image_file (name : String) (entry : FileEntry) : Bool :=
  if image_extensions.contains (strLower (pathSuffix name)) then true
  else if pathSuffix name == "" then entry.img.isSome
  else false

/-- `_is_pdf_file` (archiver.py lines 173-187): `.pdf` extension, or for
extensionless files the `%PDF-` magic header. -/
def _is_pdf_file (name : String) (entry : FileEntry) : Bool :=
  if strLower (pathSuffix name) == ".pdf" then true
  else if pathSuffix name == "" then entry.pdfMagic
  else false

/-- Replace every occurrence of the character `c` by the string `repl`
(`str.replace` for a single-character pattern). -/
def replaceChar (c : Char) (repl : List Char) : List Char → List Char
  | [] => []
  | x :: xs =>
    if x = c then repl ++ replaceChar c repl xs
    else x :: replaceChar c repl xs

/-- The Typst metacharacters escaped by `_escape_typst` (archiver.py line
193), in the source's iteration order: backslash first, then the others. -/
def typstSpecialChars : List Char :=
  "\\#*_\x60<>@$~".toList

/-- `_escape_typst` (archiver.py lines 190-195): for each metacharacter in
order, replace it by a backslash followed by itself. -/
def _escape_typst (text : String) : String :=
  String.mk (typstSpecialChars.foldl (fun t c => replaceChar c ['\\', c] t) text.toList)

/-- Reference form of the escaping: each metacharacter is prefixed with one
backslash, all other characters pass through unchanged. -/
def escapeTypstSpec (text : String) : String :=
  String.mk (text.toList.foldr
    (fun c acc => if typstSpecialChars.contains c then '\\' :: c :: acc else c :: acc) [])

/-- The byte sizes produced by Pillow's PDF encoder are determined outside
the source; the model takes them as a parameter.  `encodeQ img res q` is the
size written by `img.save(..., "PDF", resolution=res, quality=q)`;
`encodeD img res` the size with the default (unspecified) quality. -/
structure Encoder where
  encodeQ : PilImageData → Nat → Nat → Nat
  encodeD : PilImageData → Nat → Nat

/-- The mode normalisation of `compress_image_to_pdf` (archiver.py lines
109-116 and 131-137): RGBA images are pasted onto an opaque white RGB
background, any other non-RGB mode is converted to RGB; dimensions are
preserved in both cases. -/
def flattenToRGB (img : PilImageData) : PilImageData :=
  if img.mode == "RGBA" then { img with mode := "RGB" }
  else if img.mode != "RGB" then { img with mode := "RGB" }
  else img

/-- The resize step of `compress_image_to_pdf` (archiver.py lines 118-122):
`ratio = max_width / img.width; new_height = int(img.height * ratio)`.
Python's `int` truncates, so for these positive values the new height is
`⌊height * max_width / width⌋`, here computed by `Nat` division.  (The
source computes `ratio` in binary floating point; the exact rational
truncation used here coincides with it whenever the float products are
exact — in particular at every concrete input used in the theorems below.) -/
def resizeIfWide (img : PilImageData) (max_width : Nat) : PilImageData :=
  if max_width < img.width then
    { mode := img.mode, width := max_width, height := img.height * max_width / img.width }
  else img

/-- The image actually encoded into the scratch PDF by
`compress_image_to_pdf`: the flattened, resized image, unless the first
encoding came out larger than the original file, in which case the fallback
re-encodes the flattened image at full resolution. -/
def scratchImage (enc : Encoder) (max_width jpeg_quality : Nat) (e : FileEntry)
    (i : PilImageData) : PilImageData :=
  let img1 := resizeIfWide (flattenToRGB i) max_width
  if e.size < enc.encodeQ img1 150 jpeg_quality then flattenToRGB i else img1

/-- The byte size of the scratch PDF written by `compress_image_to_pdf`:
the first encoding's size, or the fallback encoding's size (full resolution,
DPI 72, default quality) when the first came out larger than the original. -/
def scratchSize (enc : Encoder) (max_width jpeg_quality : Nat) (e : FileEntry)
    (i : PilImageData) : Nat :=
  let img1 := resizeIfWide (flattenToRGB i) max_width
  let s1 := enc.encodeQ img1 150 jpeg_quality
  if e.size < s1 then enc.encodeD (flattenToRGB i) 72 else s1

/-- The file entry `compress_image_to_pdf` leaves at its output path: a
single-page PDF holding the encoded image. -/
def imageScratchEntry (enc : Encoder) (max_width jpeg_quality : Nat) (e : FileEntry)
    (i : PilImageData) : FileEntry :=
  { size := scratchSize enc max_width jpeg_quality e i,
    img := none,
    pdfMagic := true,
    pdfPages := some [Page.image (scratchImage enc max_width jpeg_quality e i)],
    ticket := none }

/-- `compress_image_to_pdf` (archiver.py lines 87-141): stat the source,
decode it, flatten alpha / convert to RGB, downscale if wider than
`max_width`, encode as a single-page PDF at DPI 150 with the given JPEG
quality; if that file is larger than the original, re-encode the
un-downscaled flattened image at DPI 72 with default quality, overwriting
the first output.  Returns `(original_size, compressed_size)` and the
filesystem after the write(s). -/
def compress_image_to_pdf (enc : Encoder) (fs : FS) (image_path output_path : FPath)
    (max_width jpeg_quality : Nat) : (Except PyError (Nat × Nat)) × FS :=
  match fs.lookupFile image_path with
  | none => (.error (.fileNotFoundError (pathStr image_path)), fs)
  | some e =>
    let original_size := e.size
    match e.img with
    | none => (.error (.unidentifiedImageError (pathStr image_path)), fs)
    | some img0 =>
      let img := resizeIfWide (flattenToRGB img0) max_width
      let compressed_size := enc.encodeQ img 150 jpeg_quality
      let fs1 := fs.writeFile output_path
        { size := compressed_size, img := none, pdfMagic := true,
          pdfPages := some [Page.image img], ticket := none }
      if original_size < compressed_size then
        let img_orig := flattenToRGB img0
        let sz2 := enc.encodeD img_orig 72
        let fs2 := fs1.writeFile output_path
          { size := sz2, img := none, pdfMagic := true,
            pdfPages := some [Page.image img_orig], ticket := none }
        (.ok (original_size, sz2), fs2)
      else
        (.ok (original_size, compressed_size), fs1)

/-- The pages stored at path `p`, if `p` is a pikepdf-openable file. -/
def pagesOf (fs : FS) (p : FPath) : Option (List Page) :=
  (fs.lookupFile p).bind (fun e => e.pdfPages)

/-- The opening loop of `merge_pdfs` (archiver.py lines 403-406): open each
input in order and concatenate its pages; the first unreadable input raises. -/
def mergeOpenAll (fs : FS) : List FPath → Except PyError (List Page)
  | [] => .ok []
  | p :: ps =>
    match fs.lookupFile p with
    | none => .error (.fileNotFoundError (pathStr p))
    | some e =>
      match e.pdfPages with
      | none => .error (.pikepdfError (pathStr p))
      | some pages => (mergeOpenAll fs ps).map (fun rest => pages ++ rest)

/-- `merge_pdfs` (archiver.py lines 389-411): append the pages of each input
in the given order to a fresh document, save once at the end, return the
total page count.  `savedSize` models the byte size pikepdf's `save` writes
for a given page list.  On any open failure the error propagates before
`save` runs, so the filesystem is returned unchanged. -/
def merge_pdfs (savedSize : List Page → Nat) (fs : FS) (pdf_paths : List FPath)
    (output_path : FPath) : (Except PyError Nat) × FS :=
  match mergeOpenAll fs pdf_paths with
  | .error e => (.error e, fs)
  | .ok pages =>
    (.ok pages.length,
     fs.writeFile output_path
       { size := savedSize pages, img := none, pdfMagic := true,
         pdfPages := some pages, ticket := none })

/-- The string-table lookups used by the archiver, with the source's
hard-coded English defaults (`strings.get(section, {}).get(key, default)`).
`fmt_ticket` is `strings['formatter']['ticket']`; the rest are from the
`archiver` section. -/
structure Strings where
  fmt_ticket : String := "Ticket"
  inbox_not_found : String := "Ticket inbox directory not found"
  already_exists : String := "receipt already exists"
  use_force : String := "Use --force to overwrite."
  original : String := "original"
  compressed : String := "compressed"
  source : String := "Source"
  target : String := "Target"
  pages : String := "Pages"
  summary : String := "Summary (Typst)"

/-- The configuration fields `generate_receipt_pdf` reads. -/
structure OSTicketConfig where
  inbox_dir : FPath
  work_dir : FPath
  temp_dir : FPath
  logo_path : Option FPath := none

/-- Externally determined behaviour of one archiving run: the random scratch
suffix (`uuid.uuid4().hex[:8]`), the image encoder, the result of the Typst
compilation of the cover (`none` = nonzero typst exit; `some (pages, size)` =
the compiled summary.pdf), and pikepdf's saved-file size. -/
structure Env where
  runHex : String
  enc : Encoder
  coverPdf : Option (List Page × Nat)
  savedSize : List Page → Nat

/-- One element of `attachments_info` (archiver.py lines 496-525). -/
structure AttInfo where
  name : String
  original_size : Nat
  compressed_size : Option Nat
  type : String
  deriving DecidableEq, Repr

/-- The attachment loop of `generate_receipt_pdf` (archiver.py lines
488-533), in metadata order: skip a missing file; a PDF (by classifier) is
stat'ed, opened for its page count and merged in place; an image is
compressed into a scratch per-attachment PDF `work_dir/<name>.pdf`; anything
else is skipped.  Returns `attachments_info`, `page_descriptions`,
`attachment_pdfs` and the filesystem after the scratch writes; a pikepdf or
Pillow failure propagates. -/
def processAttachments (enc : Encoder) (strings : Strings) (max_width jpeg_quality : Nat)
    (inbox_dir work_dir : FPath) (fs : FS) :
    List String → (Except PyError (List AttInfo × List String × List FPath)) × FS
  | [] => (.ok ([], [], []), fs)
  | att_name :: rest =>
    let att_path := inbox_dir ++ [att_name]
    match fs.lookupFile att_path with
    | none => processAttachments enc strings max_width jpeg_quality inbox_dir work_dir fs rest
    | some e =>
      if _is_pdf_file att_name e then
        match e.pdfPages with
        | none => (.error (.pikepdfError (pathStr att_path)), fs)
        | some pages =>
          match processAttachments enc strings max_width jpeg_quality inbox_dir work_dir fs rest with
          | (.ok (infos, descs, paths), fs') =>
            (.ok ({ name := att_name, original_size := e.size, compressed_size := none,
                    type := "pdf" } :: infos,
                  ("  " ++ att_name ++ " (" ++ _format_size e.size ++ ", " ++
                    strings.original ++ ", " ++ toString pages.length ++ " p.)") :: descs,
                  att_path :: paths), fs')
          | err => err
      else if _is_image_file att_name e then
        let img_pdf_path := work_dir ++ [att_name ++ ".pdf"]
        match compress_image_to_pdf enc fs att_path img_pdf_path max_width jpeg_quality with
        | (.ok (original_size, compressed_size), fs1) =>
          match processAttachments enc strings max_width jpeg_quality inbox_dir work_dir fs1 rest with
          | (.ok (infos, descs, paths), fs') =>
            (.ok ({ name := att_name, original_size := original_size,
                    compressed_size := some compressed_size, type := "image" } :: infos,
                  ("  " ++ att_name ++ " (" ++ _format_size original_size ++ " → " ++
                    _format_size compressed_size ++ ", " ++ strings.compressed ++ ")") :: descs,
                  img_pdf_path :: paths), fs')
          | err => err
        | (.error er, fs1) => (.error er, fs1)
      else
        processAttachments enc strings max_width jpeg_quality inbox_dir work_dir fs rest

/-- Python `str.strip()` for the whitespace occurring in the report lines
(ASCII whitespace removed from both ends). -/
def strStrip (s : String) : String :=
  String.mk (((s.toList.dropWhile Char.isWhitespace).reverse.dropWhile
    Char.isWhitespace).reverse)

/-- The per-page report lines of `generate_receipt_pdf` (archiver.py lines
572-576): page numbers from 2 upward, each description stripped. -/
def numberDescs : Nat → List String → List String
  | _, [] => []
  | n, d :: ds => ("    " ++ toString n ++ "   " ++ strStrip d) :: numberDescs (n + 1) ds

/-- `generate_receipt_pdf` (archiver.py lines 414-578).  Checks the inbox
folder and `ticket.json` (both failures are `FileNotFoundError`), loads the
metadata, resolves the output path, short-circuits when it exists and
`force` is not set, then processes attachments into a run-scoped scratch
directory, copies the logo there, compiles the Typst cover, merges cover
plus attachments into the output, removes the scratch directory on every
exit path, and builds the textual report.  `generate_typst_source` (the
cover's text) is not modelled beyond the compiled cover pages in `env`,
since only the external `typst` binary consumes it. -/
def generate_receipt_pdf (env : Env) (ticket_id : String) (config : OSTicketConfig)
    (strings : Strings) (output_path? : Option FPath) (force : Bool)
    (max_width jpeg_quality : Nat) (fs : FS) : (Except PyError String) × FS :=
  let inbox_dir := config.inbox_dir ++ [ticket_id]
  let ticket_json_path := inbox_dir ++ ["ticket.json"]
  if !(fs.existsPath inbox_dir) then
    (.error (.fileNotFoundError (strings.inbox_not_found ++ ": " ++ pathStr inbox_dir)), fs)
  else if !(fs.existsPath ticket_json_path) then
    (.error (.fileNotFoundError ("ticket.json missing: " ++ pathStr ticket_json_path ++
      "\nRun first: ostickethelper read " ++ ticket_id)), fs)
  else
    match (fs.lookupFile ticket_json_path).bind (fun e => e.ticket) with
    | none => (.error (.jsonDecodeError (pathStr ticket_json_path)), fs)
    | some ticket_data =>
      let output_path := output_path?.getD (config.inbox_dir ++ [ticket_id ++ ".pdf"])
      if fs.existsPath output_path && !force then
        let rel_path := relativeTo output_path config.work_dir
        (.ok (strings.fmt_ticket ++ " " ++ ticket_id ++ ": " ++ strings.already_exists ++
          ": " ++ pathStr rel_path ++ "\n" ++ strings.use_force), fs)
      else
        let fs := fs.mkdir output_path.dropLast
        let work_dir := config.temp_dir ++ ["receipt_" ++ ticket_id ++ "_" ++ env.runHex]
        let fs := fs.mkdir work_dir
        match processAttachments env.enc strings max_width jpeg_quality inbox_dir work_dir fs
            ticket_data.attachments with
        | (.error e, fs') => (.error e, fs'.removeSubtree work_dir)
        | (.ok (_attachments_info, page_descriptions, attachment_pdfs), fs1) =>
          let fs2 :=
            match config.logo_path with
            | some lp =>
              if fs1.existsPath lp then
                match fs1.lookupFile lp with
                | some le => fs1.writeFile (work_dir ++ [lastComponent lp]) le
                | none => fs1
              else fs1
            | none => fs1
          match env.coverPdf with
          | none => (.error (.runtimeError "Typst compilation failed"),
                     fs2.removeSubtree work_dir)
          | some (cover_pages, cover_size) =>
            let summary_pdf_path := work_dir ++ ["summary.pdf"]
            let fs3 := fs2.writeFile summary_pdf_path
              { size := cover_size, img := none, pdfMagic := true,
                pdfPages := some cover_pages, ticket := none }
            let all_pdfs := summary_pdf_path :: attachment_pdfs
            match merge_pdfs env.savedSize fs3 all_pdfs output_path with
            | (.error e, fs4) => (.error e, fs4.removeSubtree work_dir)
            | (.ok total_pages, fs4) =>
              let fs5 := fs4.removeSubtree work_dir
              match fs5.lookupFile output_path with
              | none => (.error (.fileNotFoundError (pathStr output_path)), fs5)
              | some out_entry =>
                let output_size := out_entry.size
                let rel_path := relativeTo output_path config.work_dir
                let inbox_rel := relativeTo config.inbox_dir config.work_dir
                let header := [
                  strings.fmt_ticket ++ " " ++ ticket_id,
                  "  " ++ strings.source ++ ":   " ++ pathStr inbox_rel ++ "/" ++
                    ticket_id ++ "/",
                  "  " ++ strings.target ++ ":   " ++ pathStr rel_path,
                  "  " ++ strings.pages ++ ":   " ++ toString total_pages ++ " (" ++
                    _format_size output_size ++ ")",
                  "    1    " ++ strings.summary]
                (.ok (String.intercalate "\n" (header ++ numberDescs 2 page_descriptions)),
                 fs5)

/-- The pages a single attachment filename contributes to the merged output
(reference function for the page-order statements): none if the file is
missing or classified neither PDF nor image; its stored pages if it is a
PDF; the one re-encoded page if it is an image. -/
def attachmentPages (enc : Encoder) (max_width jpeg_quality : Nat) (fs : FS)
    (inbox_dir : FPath) (att_name : String) : List Page :=
  match fs.lookupFile (inbox_dir ++ [att_name]) with
  | none => []
  | some e =>
    if _is_pdf_file att_name e then (e.pdfPages).getD []
    else if _is_image_file att_name e then
      match e.img with
      | some i => [Page.image (scratchImage enc max_width jpeg_quality e i)]
      | none => []
    else []

/-- The merge-list entry a single attachment filename contributes: the inbox
path itself for a pass-through PDF, the scratch path for an image, nothing
for a missing or unclassified file. -/
def mergePathOf (fs : FS) (inbox_dir work_dir : FPath) (att_name : String) : Option FPath :=
  match fs.lookupFile (inbox_dir ++ [att_name]) with
  | none => none
  | some e =>
    if _is_pdf_file att_name e then some (inbox_dir ++ [att_name])
    else if _is_image_file att_name e then some (work_dir ++ [att_name ++ ".pdf"])
    else none

section FSLemmas

theorem find?_filter_of_keep {α : Type} (q : FPath) (keep : FPath × α → Bool) :
    ∀ l : List (FPath × α), (∀ x ∈ l, x.1 = q → keep x = true) →
      (l.filter keep).find? (fun x => x.1 == q) = l.find? (fun x => x.1 == q) := by
  intro l
  induction l with
  | nil => intro h; rfl
  | cons x xs ih =>
    intro h
    by_cases hx : x.1 = q
    · have hk : keep x = true := h x (List.mem_cons_self x xs) hx
      simp only [List.filter_cons, hk, if_true]
      have hbeq : (x.1 == q) = true := by simp [hx]
      simp only [List.find?_cons, hbeq]
    · have hbeq : (x.1 == q) = false := by simp [hx]
      by_cases hk : keep x = true
      · simp only [List.filter_cons, hk, if_true, List.find?_cons, hbeq]
        exact ih (fun y hy => h y (List.mem_cons_of_mem x hy))
      · simp only [List.filter_cons, Bool.not_eq_true] at hk ⊢
        simp only [hk, Bool.false_eq_true, if_false, List.find?_cons, hbeq]
        exact ih (fun y hy => h y (List.mem_cons_of_mem x hy))

theorem find?_filter_of_drop {α : Type} (q : FPath) (keep : FPath × α → Bool) :
    ∀ l : List (FPath × α), (∀ x ∈ l, x.1 = q → keep x = false) →
      (l.filter keep).find? (fun x => x.1 == q) = none := by
  intro l
  induction l with
  | nil => intro h; rfl
  | cons x xs ih =>
    intro h
    by_cases hx : x.1 = q
    · have hk : keep x = false := h x (List.mem_cons_self x xs) hx
      simp only [List.filter_cons, hk, Bool.false_eq_true, if_false]
      exact ih (fun y hy => h y (List.mem_cons_of_mem x hy))
    · have hbeq : (x.1 == q) = false := by simp [hx]
      by_cases hk : keep x = true
      · simp only [List.filter_cons, hk, if_true, List.find?_cons, hbeq]
        exact ih (fun y hy => h y (List.mem_cons_of_mem x hy))
      · simp only [Bool.not_eq_true] at hk
        simp only [List.filter_cons, hk, Bool.false_eq_true, if_false]
        exact ih (fun y hy => h y (List.mem_cons_of_mem x hy))

theorem lookupFile_writeFile_self (fs : FS) (p : FPath) (e : FileEntry) :
    (fs.writeFile p e).lookupFile p = some e := by
  simp [FS.writeFile, FS.lookupFile, List.find?_cons]

theorem lookupFile_writeFile_ne (fs : FS) (p q : FPath) (e : FileEntry) (h : q ≠ p) :
    (fs.writeFile p e).lookupFile q = fs.lookupFile q := by
  have hbeq : (p == q) = false := by
    rw [beq_eq_false_iff_ne]
    exact fun hpq => h hpq.symm
  simp only [FS.writeFile, FS.lookupFile, List.find?_cons, hbeq]
  rw [find?_filter_of_keep q _ fs.files]
  intro x _ hx
  rw [bne_iff_ne]
  rw [hx]
  exact h

theorem writeFile_writeFile (fs : FS) (p : FPath) (e1 e2 : FileEntry) :
    (fs.writeFile p e1).writeFile p e2 = fs.writeFile p e2 := by
  simp [FS.writeFile, List.filter_cons, List.filter_filter]

theorem lookupFile_mkdir (fs : FS) (p q : FPath) :
    (fs.mkdir p).lookupFile q = fs.lookupFile q := rfl

theorem lookupFile_removeSubtree_under (fs : FS) (p q : FPath)
    (h : List.isPrefixOf p q = true) :
    (fs.removeSubtree p).lookupFile q = none := by
  simp only [FS.removeSubtree, FS.lookupFile]
  rw [find?_filter_of_drop]
  · rfl
  · intro x _ hx
    simp [hx, h]

theorem lookupFile_removeSubtree_outside (fs : FS) (p q : FPath)
    (h : List.isPrefixOf p q = false) :
    (fs.removeSubtree p).lookupFile q = fs.lookupFile q := by
  simp only [FS.removeSubtree, FS.lookupFile]
  rw [find?_filter_of_keep]
  intro x _ hx
  simp [hx, h]

theorem ne_of_not_isPrefixOf (work p : FPath) (x : String)
    (h : List.isPrefixOf work p = false) : p ≠ work ++ [x] := by
  intro hp
  rw [hp] at h
  have h2 : List.isPrefixOf work (work ++ [x]) = true :=
    List.isPrefixOf_iff_prefix.mpr (List.prefix_append work [x])
  rw [h2] at h
  exact Bool.noConfusion h

end FSLemmas

section EscapeLemmas

/-- Escape every character that is in `L` by prefixing a backslash. -/
def escWith (L : List Char) (s : List Char) : List Char :=
  s.foldr (fun c acc => if L.contains c then '\\' :: c :: acc else c :: acc) []

theorem escWith_cons (L : List Char) (x : Char) (xs : List Char) :
    escWith L (x :: xs) =
      if L.contains x then '\\' :: x :: escWith L xs else x :: escWith L xs := rfl

theorem replaceChar_cons (c : Char) (repl : List Char) (x : Char) (xs : List Char) :
    replaceChar c repl (x :: xs) =
      if x = c then repl ++ replaceChar c repl xs else x :: replaceChar c repl xs := rfl

theorem replaceChar_backslash : ∀ s : List Char,
    replaceChar '\\' ['\\', '\\'] s = escWith ['\\'] s := by
  intro s
  induction s with
  | nil => rfl
  | cons x xs ih =>
    rw [replaceChar_cons, escWith_cons]
    by_cases hx : x = '\\'
    · subst hx
      rw [if_pos rfl, if_pos (by decide), ih]
      rfl
    · have hb : (x == '\\') = false := by
        rw [beq_eq_false_iff_ne]; exact hx
      have hc : (['\\'] : List Char).contains x = false := by
        rw [List.contains_cons, hb]
        rfl
      rw [if_neg hx, if_neg (by rw [hc]; exact Bool.false_ne_true), ih]

theorem replaceChar_escWith (c : Char) (L : List Char)
    (hcL : L.contains c = false) (hcb : c ≠ '\\') :
    ∀ s : List Char, replaceChar c ['\\', c] (escWith L s) = escWith (c :: L) s := by
  intro s
  induction s with
  | nil => rfl
  | cons x xs ih =>
    have hbc : ('\\' : Char) ≠ c := fun he => hcb he.symm
    have hccons : ((c :: L).contains x) = (x == c || L.contains x) := List.contains_cons
    rw [escWith_cons, escWith_cons, hccons]
    by_cases hxL : L.contains x = true
    · have hxc : x ≠ c := by
        intro he
        rw [he] at hxL
        rw [hxL] at hcL
        exact Bool.noConfusion hcL
      rw [if_pos hxL, replaceChar_cons, if_neg hbc, replaceChar_cons, if_neg hxc, ih]
      have ht : (x == c || L.contains x) = true := by rw [hxL, Bool.or_true]
      rw [if_pos ht]
    · simp only [Bool.not_eq_true] at hxL
      rw [if_neg (by rw [hxL]; exact Bool.false_ne_true)]
      by_cases hxc : x = c
      · rw [replaceChar_cons, if_pos hxc, ih]
        have ht : (x == c || L.contains x) = true := by
          have : (x == c) = true := by rw [beq_iff_eq]; exact hxc
          rw [this, Bool.true_or]
        rw [if_pos ht]
        rw [hxc]
        rfl
      · rw [replaceChar_cons, if_neg hxc, ih]
        have hb : (x == c) = false := by rw [beq_eq_false_iff_ne]; exact hxc
        have hf : (x == c || L.contains x) = false := by rw [hb, hxL, Bool.or_self]
        rw [if_neg (by rw [hf]; exact Bool.false_ne_true)]

theorem escWith_congr (L1 L2 : List Char) (h : ∀ x, L1.contains x = L2.contains x) :
    ∀ s, escWith L1 s = escWith L2 s := by
  intro s
  induction s with
  | nil => rfl
  | cons x xs ih =>
    simp only [escWith, List.foldr] at ih ⊢
    rw [h x, ih]

theorem specials_eq :
    typstSpecialChars = ['\\', '#', '*', '_', '\x60', '<', '>', '@', '$', '~'] := by decide

theorem contains_rev_specials (x : Char) :
    (['~', '$', '@', '>', '<', '\x60', '_', '*', '#', '\\'] : List Char).contains x =
      (['\\', '#', '*', '_', '\x60', '<', '>', '@', '$', '~'] : List Char).contains x := by
  show List.elem x _ = List.elem x _
  rw [List.elem_eq_mem, List.elem_eq_mem, decide_eq_decide]
  simp only [List.mem_cons, List.not_mem_nil, or_false]
  tauto

theorem escape_characterization : ∀ s : String, _escape_typst s = escapeTypstSpec s := by
  intro s
  unfold _escape_typst escapeTypstSpec
  rw [specials_eq]
  simp only [List.foldl]
  rw [replaceChar_backslash]
  rw [replaceChar_escWith '#' ['\\'] (by decide) (by decide)]
  rw [replaceChar_escWith '*' ['#', '\\'] (by decide) (by decide)]
  rw [replaceChar_escWith '_' ['*', '#', '\\'] (by decide) (by decide)]
  rw [replaceChar_escWith '\x60' ['_', '*', '#', '\\'] (by decide) (by decide)]
  rw [replaceChar_escWith '<' ['\x60', '_', '*', '#', '\\'] (by decide) (by decide)]
  rw [replaceChar_escWith '>' ['<', '\x60', '_', '*', '#', '\\'] (by decide) (by decide)]
  rw [replaceChar_escWith '@' ['>', '<', '\x60', '_', '*', '#', '\\'] (by decide) (by decide)]
  rw [replaceChar_escWith '$' ['@', '>', '<', '\x60', '_', '*', '#', '\\'] (by decide) (by decide)]
  rw [replaceChar_escWith '~' ['$', '@', '>', '<', '\x60', '_', '*', '#', '\\'] (by decide) (by decide)]
  exact congrArg String.mk (escWith_congr _ _ contains_rev_specials s.toList)

end EscapeLemmas

/-- Claim C6: `_escape_typst` prefixes each occurrence of a character of the
fixed metacharacter set with the escape marker (one backslash) exactly once,
characters outside the set (such as `€`) pass through unchanged, and in
particular `_escape_typst "#text*"` yields each metacharacter prefixed
once. -/
theorem escape_typst_correct :
    (∀ s : String, _escape_typst s = escapeTypstSpec s) ∧
    _escape_typst "#text*" = "\\#text\\*" ∧
    _escape_typst "€" = "€" := by
  refine ⟨escape_characterization, ?_, ?_⟩ <;> decide

/-- Claim C7 counterexample: for a 1600×3 image downscaled to width 800, the
source computes the new height as `int(3 * (800/1600)) = int(1.5) = 1`
(truncation; the float products here are exact), whereas the claimed
formula `round(originalHeight * maxWidth / originalWidth)` — Python `round`,
i.e. round-half-even — gives `round(1.5) = 2`. -/
theorem resize_rounding_cex :
    (resizeIfWide ⟨"RGB", 1600, 3⟩ 800).height = 1 ∧
    roundHalfEven (3 * 800) 1600 = 2 ∧ (1 : Nat) ≠ 2 := by decide

/-- Claim C7 (amended): whenever the decoded image's width exceeds
`max_width`, `compress_image_to_pdf` downscales it to width exactly
`max_width` with the new height computed as the truncation
`int(originalHeight * (maxWidth / originalWidth))` — i.e. the floor, which
never exceeds (and can be one below) round-to-nearest; an image whose width
is at most `max_width` is not resized. -/
theorem resize_truncation (img : PilImageData) (max_width : Nat) :
    (max_width < img.width →
      resizeIfWide img max_width =
        ⟨img.mode, max_width, img.height * max_width / img.width⟩ ∧
      img.height * max_width / img.width ≤
        roundHalfEven (img.height * max_width) img.width) ∧
    (img.width ≤ max_width → resizeIfWide img max_width = img) := by
  constructor
  · intro h
    constructor
    · rw [resizeIfWide, if_pos h]
    · simp only [roundHalfEven]
      split_ifs <;> first | exact Nat.le_succ _ | exact Nat.le_refl _
  · intro h
    rw [resizeIfWide, if_neg (by exact Nat.not_lt.mpr h)]

/-- Witness for the amended C7 at the concrete 1600×3 image. -/
theorem resize_truncation_witness :
    800 < 1600 ∧
    (resizeIfWide ⟨"RGB", 1600, 3⟩ 800 = ⟨"RGB", 800, 3 * 800 / 1600⟩ ∧
      3 * 800 / 1600 ≤ roundHalfEven (3 * 800) 1600) :=
  ⟨by decide, (resize_truncation ⟨"RGB", 1600, 3⟩ 800).1 (by decide)⟩

section CompressLemmas

theorem compress_image_eq (enc : Encoder) (fs : FS) (ip op : FPath) (mw q : Nat)
    (e : FileEntry) (i : PilImageData)
    (hl : fs.lookupFile ip = some e) (hi : e.img = some i) :
    compress_image_to_pdf enc fs ip op mw q =
      (.ok (e.size, scratchSize enc mw q e i),
       fs.writeFile op (imageScratchEntry enc mw q e i)) := by
  simp only [compress_image_to_pdf, hl, hi]
  by_cases hc : e.size < enc.encodeQ (resizeIfWide (flattenToRGB i) mw) 150 q
  · rw [if_pos hc]
    simp only [scratchSize, imageScratchEntry, scratchImage, if_pos hc]
    rw [writeFile_writeFile]
  · rw [if_neg hc]
    simp only [scratchSize, imageScratchEntry, scratchImage, if_neg hc]

end CompressLemmas

/-- Fixture for the C2 counterexample: a 5-byte decodable image whose PDF
encodings (both the quality-reduced first pass and the DPI-72 fallback) come
out at 10 bytes. -/
def c2Enc : Encoder :=
  { encodeQ := fun _ _ _ => 10, encodeD := fun _ _ => 10 }

def c2Fs : FS :=
  { dirs := [],
    files := [(["img"], { size := 5, img := some ⟨"RGB", 10, 10⟩ })] }

/-- Claim C2 counterexample: `compress_image_to_pdf` does not compare the
fallback re-encode's size with the original; on a 5-byte source whose
encodings are 10 bytes it returns `(5, 10)` with `compressedBytes >
originalBytes`, so the claimed guarantee "compressedBytes never exceeds
originalBytes" fails. -/
theorem compress_can_exceed_original :
    (compress_image_to_pdf c2Enc c2Fs ["img"] ["out.pdf"] 800 75).1 = .ok (5, 10) ∧
    ¬(10 ≤ 5) :=
  ⟨rfl, by decide⟩

/-- Claim C2 (amended): whenever the first encoding (downscaled, DPI 150,
given quality) produces a file larger than the original, the fallback
re-encode (full resolution, DPI 72, default encoder quality) is taken and
its size is returned without any further comparison; consequently
`compressedBytes ≤ originalBytes` is guaranteed exactly under the
hypothesis that the fallback encoding itself does not exceed the original
file's size.  Every decodable image (in particular a small, already-compact
one) produces a valid single-page PDF at the output path without error. -/
theorem compress_fallback_bound (enc : Encoder) (fs : FS) (ip op : FPath)
    (mw q : Nat) (e : FileEntry) (i : PilImageData)
    (hl : fs.lookupFile ip = some e) (hi : e.img = some i)
    (hfb : enc.encodeD (flattenToRGB i) 72 ≤ e.size) :
    compress_image_to_pdf enc fs ip op mw q =
      (.ok (e.size, scratchSize enc mw q e i),
       fs.writeFile op (imageScratchEntry enc mw q e i)) ∧
    scratchSize enc mw q e i ≤ e.size ∧
    ((fs.writeFile op (imageScratchEntry enc mw q e i)).lookupFile op).map
        (fun oe => oe.pdfPages) =
      some (some [Page.image (scratchImage enc mw q e i)]) := by
  refine ⟨compress_image_eq enc fs ip op mw q e i hl hi, ?_, ?_⟩
  · simp only [scratchSize]
    by_cases hc : e.size < enc.encodeQ (resizeIfWide (flattenToRGB i) mw) 150 q
    · rw [if_pos hc]; exact hfb
    · rw [if_neg hc]; exact Nat.not_lt.mp hc
  · rw [lookupFile_writeFile_self]
    rfl

/-- Fixture for the C2 amended witness: first encoding 9 bytes (larger than
the 5-byte original, forcing the fallback), fallback encoding 4 bytes. -/
def c2wEnc : Encoder :=
  { encodeQ := fun _ _ _ => 9, encodeD := fun _ _ => 4 }

def c2wFs : FS :=
  { dirs := [],
    files := [(["img"], { size := 5, img := some ⟨"L", 3, 3⟩ })] }

def c2wEntry : FileEntry := { size := 5, img := some ⟨"L", 3, 3⟩ }

/-- Witness for the amended C2 at a concrete fallback-taking run. -/
theorem compress_fallback_bound_witness :
    c2wFs.lookupFile ["img"] = some c2wEntry ∧
    c2wEntry.img = some ⟨"L", 3, 3⟩ ∧
    c2wEnc.encodeD (flattenToRGB ⟨"L", 3, 3⟩) 72 ≤ c2wEntry.size ∧
    (compress_image_to_pdf c2wEnc c2wFs ["img"] ["out.pdf"] 800 75 =
      (.ok (c2wEntry.size, scratchSize c2wEnc 800 75 c2wEntry ⟨"L", 3, 3⟩),
       c2wFs.writeFile ["out.pdf"] (imageScratchEntry c2wEnc 800 75 c2wEntry ⟨"L", 3, 3⟩)) ∧
     scratchSize c2wEnc 800 75 c2wEntry ⟨"L", 3, 3⟩ ≤ c2wEntry.size ∧
     ((c2wFs.writeFile ["out.pdf"] (imageScratchEntry c2wEnc 800 75 c2wEntry ⟨"L", 3, 3⟩)).lookupFile
         ["out.pdf"]).map (fun oe => oe.pdfPages) =
       some (some [Page.image (scratchImage c2wEnc 800 75 c2wEntry ⟨"L", 3, 3⟩)])) :=
  ⟨by decide, by decide, by decide,
   compress_fallback_bound c2wEnc c2wFs ["img"] ["out.pdf"] 800 75 c2wEntry ⟨"L", 3, 3⟩
     (by decide) (by decide) (by decide)⟩

/-- Claim C9: content sniffing applies only to extensionless names — for
every filename carrying a non-empty extension that is neither in the known
image-extension set nor `.pdf`, both classifiers return false for every
possible file content (the entry is universally quantified, so the file's
bytes are never consulted, even if they form a valid image or start with
the PDF magic), and the attachment loop treats such a file exactly as if it
were absent, omitting it from the archive. -/
theorem classifier_ext_only (name : String) (e : FileEntry)
    (h1 : pathSuffix name ≠ "")
    (h2 : image_extensions.contains (strLower (pathSuffix name)) = false)
    (h3 : strLower (pathSuffix name) ≠ ".pdf") :
    _is_image_file name e = false ∧ _is_pdf_file name e = false ∧
    (∀ (enc : Encoder) (strings : Strings) (mw q : Nat) (inbox work : FPath)
       (fs : FS) (rest : List String),
       fs.lookupFile (inbox ++ [name]) = some e →
       processAttachments enc strings mw q inbox work fs (name :: rest) =
         processAttachments enc strings mw q inbox work fs rest) := by
  have hsfx : (pathSuffix name == "") = false := by
    rw [beq_eq_false_iff_ne]; exact h1
  have hpdfx : (strLower (pathSuffix name) == ".pdf") = false := by
    rw [beq_eq_false_iff_ne]; exact h3
  have himg : _is_image_file name e = false := by
    unfold _is_image_file
    rw [if_neg (by rw [h2]; exact Bool.false_ne_true),
        if_neg (by rw [hsfx]; exact Bool.false_ne_true)]
  have hpdf : _is_pdf_file name e = false := by
    unfold _is_pdf_file
    rw [if_neg (by rw [hpdfx]; exact Bool.false_ne_true),
        if_neg (by rw [hsfx]; exact Bool.false_ne_true)]
  refine ⟨himg, hpdf, ?_⟩
  intro enc strings mw q inbox work fs rest hl
  simp only [processAttachments, hl, hpdf, himg, Bool.false_eq_true, if_false]

/-- Fixtures for the C9 witness: a file named `notes.txt` whose content is
both a decodable image and carries the PDF magic header. -/
def c9Entry : FileEntry :=
  { size := 42, img := some ⟨"RGB", 2, 2⟩, pdfMagic := true,
    pdfPages := some [Page.tag "n" 0] }

def c9Enc : Encoder := { encodeQ := fun _ _ _ => 1, encodeD := fun _ _ => 1 }

def c9Fs : FS :=
  { dirs := [], files := [(["in", "notes.txt"], c9Entry)] }

/-- Witness for C9 at `notes.txt` with image-and-PDF-like content. -/
theorem classifier_ext_only_witness :
    pathSuffix "notes.txt" ≠ "" ∧
    image_extensions.contains (strLower (pathSuffix "notes.txt")) = false ∧
    strLower (pathSuffix "notes.txt") ≠ ".pdf" ∧
    (_is_image_file "notes.txt" c9Entry = false ∧
     _is_pdf_file "notes.txt" c9Entry = false ∧
     (∀ (enc : Encoder) (strings : Strings) (mw q : Nat) (inbox work : FPath)
        (fs : FS) (rest : List String),
        fs.lookupFile (inbox ++ ["notes.txt"]) = some c9Entry →
        processAttachments enc strings mw q inbox work fs ("notes.txt" :: rest) =
          processAttachments enc strings mw q inbox work fs rest)) :=
  ⟨by decide, by decide, by decide,
   classifier_ext_only "notes.txt" c9Entry (by decide) (by decide) (by decide)⟩

section MergeLemmas

theorem mergeOpenAll_ok (fs : FS) : ∀ paths : List FPath,
    (∀ p ∈ paths, (pagesOf fs p).isSome = true) →
    mergeOpenAll fs paths = .ok (paths.flatMap (fun p => (pagesOf fs p).getD [])) := by
  intro paths
  induction paths with
  | nil => intro _; rfl
  | cons p ps ih =>
    intro h
    have hp := h p (List.mem_cons_self p ps)
    cases hpg : pagesOf fs p with
    | none => rw [hpg] at hp; exact Bool.noConfusion hp
    | some pages =>
      obtain ⟨e, he, hpp⟩ := Option.bind_eq_some.mp hpg
      rw [List.flatMap_cons]
      simp only [mergeOpenAll, he, hpp,
        ih (fun r hr => h r (List.mem_cons_of_mem p hr))]
      rw [hpg]
      rfl

theorem mergeOpenAll_err (fs : FS) : ∀ paths : List FPath, ∀ p ∈ paths,
    pagesOf fs p = none → ∃ er, mergeOpenAll fs paths = .error er := by
  intro paths
  induction paths with
  | nil => intro p hp; exact absurd hp (List.not_mem_nil p)
  | cons r rs ih =>
    intro p hp hnone
    cases hl : fs.lookupFile r with
    | none => exact ⟨.fileNotFoundError (pathStr r), by simp [mergeOpenAll, hl]⟩
    | some e =>
      cases hpp : e.pdfPages with
      | none => exact ⟨.pikepdfError (pathStr r), by simp [mergeOpenAll, hl, hpp]⟩
      | some pages =>
        rcases List.mem_cons.mp hp with hpr | hps
        · rw [hpr] at hnone
          rw [show pagesOf fs r = some pages from by simp [pagesOf, hl, hpp]] at hnone
          exact Option.noConfusion hnone
        · obtain ⟨er, her⟩ := ih p hps hnone
          refine ⟨er, ?_⟩
          simp only [mergeOpenAll, hl, hpp, her]
          rfl

end MergeLemmas

/-- Claim C5: `merge_pdfs` appends the pages of each input in list order,
writes the result exactly once at the end, and returns the sum of the page
counts across the inputs; if any input is missing or cannot be opened as a
PDF, the whole operation fails with an error and the filesystem is returned
unchanged — in particular nothing is written at `output_path`. -/
theorem merge_pdfs_correct (savedSize : List Page → Nat) (fs : FS)
    (paths : List FPath) (out : FPath) :
    ((∀ p ∈ paths, (pagesOf fs p).isSome = true) →
      merge_pdfs savedSize fs paths out =
        (.ok ((paths.map (fun p => ((pagesOf fs p).getD []).length)).sum),
         fs.writeFile out
           { size := savedSize (paths.flatMap (fun p => (pagesOf fs p).getD [])),
             img := none, pdfMagic := true,
             pdfPages := some (paths.flatMap (fun p => (pagesOf fs p).getD [])),
             ticket := none })) ∧
    (∀ p ∈ paths, pagesOf fs p = none →
      ∃ er, merge_pdfs savedSize fs paths out = (.error er, fs)) := by
  constructor
  · intro h
    simp only [merge_pdfs, mergeOpenAll_ok fs paths h]
    rw [List.length_flatMap]
    rfl
  · intro p hp hnone
    obtain ⟨er, her⟩ := mergeOpenAll_err fs paths p hp hnone
    exact ⟨er, by rw [merge_pdfs, her]⟩

/-- Fixtures for the C5 witness: one readable two-page input, and a second
filesystem whose input is present but not openable as a PDF. -/
def c5Fs : FS :=
  { dirs := [],
    files := [(["a.pdf"], { size := 9, pdfPages := some [Page.tag "a" 0, Page.tag "a" 1] })] }

def c5FsBad : FS :=
  { dirs := [], files := [(["b.pdf"], { size := 9, pdfPages := none })] }

/-- Witness for C5: the success half on a readable input and the failure
half on a corrupt input. -/
theorem merge_pdfs_correct_witness :
    (∀ p ∈ [(["a.pdf"] : FPath)], (pagesOf c5Fs p).isSome = true) ∧
    merge_pdfs (fun _ => 77) c5Fs [["a.pdf"]] ["out.pdf"] =
      (.ok (([(["a.pdf"] : FPath)].map
          (fun p => ((pagesOf c5Fs p).getD []).length)).sum),
       c5Fs.writeFile ["out.pdf"]
         { size := 77, img := none, pdfMagic := true,
           pdfPages := some ([(["a.pdf"] : FPath)].flatMap
             (fun p => (pagesOf c5Fs p).getD [])),
           ticket := none }) ∧
    pagesOf c5FsBad ["b.pdf"] = none ∧
    (∃ er, merge_pdfs (fun _ => 77) c5FsBad [["b.pdf"]] ["out.pdf"] = (.error er, c5FsBad)) := by
  refine ⟨by decide, ?_, by decide, ?_⟩
  · have h := (merge_pdfs_correct (fun _ => 77) c5Fs [["a.pdf"]] ["out.pdf"]).1 (by decide)
    rw [h]
  · exact (merge_pdfs_correct (fun _ => 77) c5FsBad [["b.pdf"]] ["out.pdf"]).2
      ["b.pdf"] (List.mem_cons_self _ _) (by decide)

/-- Claim C10: `merge_pdfs` on an empty input list does not fail — it
returns a total page count of 0 and still writes a zero-page PDF document at
the output path. -/
theorem merge_pdfs_empty (savedSize : List Page → Nat) (fs : FS) (out : FPath) :
    (merge_pdfs savedSize fs [] out).1 = .ok 0 ∧
    ∃ e, ((merge_pdfs savedSize fs [] out).2).lookupFile out = some e ∧
      e.pdfPages = some [] := by
  refine ⟨rfl, ?_⟩
  refine ⟨{ size := savedSize [], img := none, pdfMagic := true,
            pdfPages := some [], ticket := none }, ?_, rfl⟩
  show (fs.writeFile out _).lookupFile out = _
  rw [lookupFile_writeFile_self]

/-- Claim C1: when the resolved output path already exists and `force` is
not set, `generate_receipt_pdf` short-circuits — it returns a report naming
the existing output's (work-dir-relative) path together with the
use-the-overwrite-flag instruction, and the filesystem is returned exactly
unchanged, so the existing output's bytes are untouched.  The equation holds
for every `env` (every encoder, cover and saved-size behaviour), so no
attachment processing, compilation or merging is performed. -/
theorem generate_short_circuits (env : Env) (tid : String) (cfg : OSTicketConfig)
    (strings : Strings) (out? : Option FPath) (mw q : Nat) (fs : FS) (t : TicketData)
    (h1 : fs.existsPath (cfg.inbox_dir ++ [tid]) = true)
    (h2 : fs.existsPath (cfg.inbox_dir ++ [tid] ++ ["ticket.json"]) = true)
    (h3 : (fs.lookupFile (cfg.inbox_dir ++ [tid] ++ ["ticket.json"])).bind
        (fun e => e.ticket) = some t)
    (h4 : fs.existsPath (out?.getD (cfg.inbox_dir ++ [tid ++ ".pdf"])) = true) :
    generate_receipt_pdf env tid cfg strings out? false mw q fs =
      (.ok (strings.fmt_ticket ++ " " ++ tid ++ ": " ++ strings.already_exists ++ ": " ++
        pathStr (relativeTo (out?.getD (cfg.inbox_dir ++ [tid ++ ".pdf"])) cfg.work_dir) ++
        "\n" ++ strings.use_force), fs) := by
  simp only [List.append_assoc, List.singleton_append] at h2 h3
  simp [generate_receipt_pdf, h1, h2, h3, h4]

/-- Fixtures for the C1 witness: a ticket with one attachment whose default
output `inbox/339.pdf` already exists. -/
def c1Env : Env :=
  { runHex := "r", enc := { encodeQ := fun _ _ _ => 1, encodeD := fun _ _ => 1 },
    coverPdf := some ([Page.tag "cover" 0], 9), savedSize := fun _ => 9 }

def c1Cfg : OSTicketConfig :=
  { inbox_dir := ["inbox"], work_dir := ["w"], temp_dir := ["tmp"] }

def c1Fs : FS :=
  { dirs := [["inbox", "339"]],
    files := [
      (["inbox", "339", "ticket.json"], { ticket := some ⟨["a.pdf"]⟩ }),
      (["inbox", "339", "a.pdf"], { size := 3, pdfPages := some [Page.tag "a" 0] }),
      (["inbox", "339.pdf"], { size := 7, pdfPages := some [Page.tag "old" 0] })] }

/-- Witness for C1: the second run over an existing `inbox/339.pdf` reports
it and leaves the filesystem untouched. -/
theorem generate_short_circuits_witness :
    c1Fs.existsPath (c1Cfg.inbox_dir ++ ["339"]) = true ∧
    c1Fs.existsPath (c1Cfg.inbox_dir ++ ["339"] ++ ["ticket.json"]) = true ∧
    (c1Fs.lookupFile (c1Cfg.inbox_dir ++ ["339"] ++ ["ticket.json"])).bind
      (fun e => e.ticket) = some ⟨["a.pdf"]⟩ ∧
    c1Fs.existsPath ((none : Option FPath).getD (c1Cfg.inbox_dir ++ ["339" ++ ".pdf"])) = true ∧
    generate_receipt_pdf c1Env "339" c1Cfg {} none false 800 75 c1Fs =
      (.ok (Strings.fmt_ticket {} ++ " " ++ "339" ++ ": " ++ Strings.already_exists {} ++
        ": " ++ pathStr (relativeTo ((none : Option FPath).getD
          (c1Cfg.inbox_dir ++ ["339" ++ ".pdf"])) c1Cfg.work_dir) ++
        "\n" ++ Strings.use_force {}), c1Fs) :=
  ⟨by decide, by decide, by decide, by decide,
   generate_short_circuits c1Env "339" c1Cfg {} none 800 75 c1Fs ⟨["a.pdf"]⟩
     (by decide) (by decide) (by decide) (by decide)⟩

/-- Fixtures for the C4 theorems. -/
def c4Env : Env :=
  { runHex := "r", enc := { encodeQ := fun _ _ _ => 1, encodeD := fun _ _ => 1 },
    coverPdf := some ([Page.tag "cover" 0], 9), savedSize := fun _ => 9 }

def c4Cfg : OSTicketConfig :=
  { inbox_dir := ["inbox"], work_dir := ["w"], temp_dir := ["tmp"] }

def c4FsA : FS := { dirs := [], files := [] }

def c4FsB : FS := { dirs := [["inbox", "339"]], files := [] }

/-- Claim C4 counterexample: the missing-metadata failure is raised with the
very same exception type as the missing-inbox failure — both runs below
produce a `FileNotFoundError` (the source raises `FileNotFoundError` at
archiver.py lines 448 and 450), so there is no distinct
`MissingMetadataError` type; only the message (which does carry the
run-ingestion guidance) differs. -/
theorem generate_errors_same_type_cex :
    (generate_receipt_pdf c4Env "339" c4Cfg {} none false 800 75 c4FsA).1 =
      .error (.fileNotFoundError "Ticket inbox directory not found: inbox/339") ∧
    (generate_receipt_pdf c4Env "339" c4Cfg {} none false 800 75 c4FsB).1 =
      .error (.fileNotFoundError
        ("ticket.json missing: inbox/339/ticket.json\nRun first: ostickethelper read 339")) :=
  ⟨rfl, rfl⟩

/-- Claim C4 (amended): `generate_receipt_pdf` fails with `FileNotFoundError`
when the ticket's inbox folder is absent; when the folder exists but
`ticket.json` is absent it raises `FileNotFoundError` as well — the same
exception type, not a distinct one — distinguished only by its message,
which carries the guidance to run the prior ingestion step
(`Run first: ostickethelper read <id>`). -/
theorem generate_missing_errors (env : Env) (tid : String) (cfg : OSTicketConfig)
    (strings : Strings) (out? : Option FPath) (force : Bool) (mw q : Nat) (fs : FS) :
    (fs.existsPath (cfg.inbox_dir ++ [tid]) = false →
      generate_receipt_pdf env tid cfg strings out? force mw q fs =
        (.error (.fileNotFoundError (strings.inbox_not_found ++ ": " ++
          pathStr (cfg.inbox_dir ++ [tid]))), fs)) ∧
    (fs.existsPath (cfg.inbox_dir ++ [tid]) = true →
     fs.existsPath (cfg.inbox_dir ++ [tid] ++ ["ticket.json"]) = false →
      generate_receipt_pdf env tid cfg strings out? force mw q fs =
        (.error (.fileNotFoundError ("ticket.json missing: " ++
          pathStr (cfg.inbox_dir ++ [tid] ++ ["ticket.json"]) ++
          "\nRun first: ostickethelper read " ++ tid)), fs)) := by
  constructor
  · intro h
    simp [generate_receipt_pdf, h]
  · intro h1 h2
    simp only [List.append_assoc, List.singleton_append] at h2
    simp [generate_receipt_pdf, h1, h2]

/-- Witness for the amended C4: the metadata-missing path on a concrete
inbox folder without `ticket.json`. -/
theorem generate_missing_errors_witness :
    c4FsB.existsPath (c4Cfg.inbox_dir ++ ["339"]) = true ∧
    c4FsB.existsPath (c4Cfg.inbox_dir ++ ["339"] ++ ["ticket.json"]) = false ∧
    generate_receipt_pdf c4Env "339" c4Cfg {} none false 800 75 c4FsB =
      (.error (.fileNotFoundError ("ticket.json missing: " ++
        pathStr (c4Cfg.inbox_dir ++ ["339"] ++ ["ticket.json"]) ++
        "\nRun first: ostickethelper read " ++ "339")), c4FsB) :=
  ⟨by decide, by decide,
   (generate_missing_errors c4Env "339" c4Cfg {} none false 800 75 c4FsB).2
     (by decide) (by decide)⟩

/-- Fixtures for the C8 scenario: ticket `339` with a 1-page 114000-byte
`receipt.pdf` and a 4000×3000 5000000-byte `photo.jpg`; the image's PDF
encoding comes out at 400000 bytes, the compiled cover is one page, and the
merged file saves at 500000 bytes. -/
def c8Env : Env :=
  { runHex := "abcd1234",
    enc := { encodeQ := fun _ _ _ => 400000, encodeD := fun _ _ => 400000 },
    coverPdf := some ([Page.tag "cover" 0], 20000),
    savedSize := fun _ => 500000 }

def c8Cfg : OSTicketConfig :=
  { inbox_dir := ["home", "inbox"], work_dir := ["home"], temp_dir := ["home", "tmp"] }

def c8Fs : FS :=
  { dirs := [["home", "inbox", "339"]],
    files := [
      (["home", "inbox", "339", "ticket.json"],
        { ticket := some ⟨["receipt.pdf", "photo.jpg"]⟩ }),
      (["home", "inbox", "339", "receipt.pdf"],
        { size := 114000, pdfPages := some [Page.tag "receipt" 0] }),
      (["home", "inbox", "339", "photo.jpg"],
        { size := 5000000, img := some ⟨"RGB", 4000, 3000⟩ })] }

/-- Claim C8 counterexample: `_format_size` divides by 1024, so 114000 bytes
render as `111 KB`, not `114 KB`; in the end-to-end scenario the report's
PDF-attachment line therefore reads `receipt.pdf (111 KB, original, 1 p.)`,
not the claimed `receipt.pdf (114 KB, original, 1 p.)`. -/
theorem generate_report_cex :
    _format_size 114000 = "111 KB" ∧ "111 KB" ≠ "114 KB" ∧
    (generate_receipt_pdf c8Env "339" c8Cfg {} none false 800 75 c8Fs).1 =
      .ok ("Ticket 339\n  Source:   inbox/339/\n  Target:   inbox/339.pdf\n" ++
        "  Pages:   3 (488 KB)\n    1    Summary (Typst)\n" ++
        "    2   receipt.pdf (111 KB, original, 1 p.)\n" ++
        "    3   photo.jpg (4.8 MB → 391 KB, compressed)") :=
  ⟨by decide, by decide, by rfl⟩

/-- Claim C8 (amended): in the end-to-end scenario (ticket `339`, one 1-page
114000-byte PDF `receipt.pdf`, one 5000000-byte image `photo.jpg`), the
generated output holds exactly 1 cover page plus 2 content pages, and the
report's attachment lines read `receipt.pdf (111 KB, original, 1 p.)` —
114000 bytes formatted with the source's 1024 divisor — and
`photo.jpg (4.8 MB → 391 KB, compressed)`. -/
theorem generate_report_scenario :
    (generate_receipt_pdf c8Env "339" c8Cfg {} none false 800 75 c8Fs).1 =
      .ok ("Ticket 339\n  Source:   inbox/339/\n  Target:   inbox/339.pdf\n" ++
        "  Pages:   3 (488 KB)\n    1    Summary (Typst)\n" ++
        "    2   receipt.pdf (111 KB, original, 1 p.)\n" ++
        "    3   photo.jpg (4.8 MB → 391 KB, compressed)") ∧
    pagesOf (generate_receipt_pdf c8Env "339" c8Cfg {} none false 800 75 c8Fs).2
        ["home", "inbox", "339.pdf"] =
      some [Page.tag "cover" 0, Page.tag "receipt" 0, Page.image ⟨"RGB", 800, 600⟩] :=
  ⟨by rfl, by decide⟩

section PageOrderLemmas

theorem attachmentPages_congr (enc : Encoder) (mw q : Nat) (fs2 fs3 : FS)
    (inbox : FPath) (x : String)
    (h : fs2.lookupFile (inbox ++ [x]) = fs3.lookupFile (inbox ++ [x])) :
    attachmentPages enc mw q fs2 inbox x = attachmentPages enc mw q fs3 inbox x := by
  unfold attachmentPages
  rw [h]

theorem mergeOpenAll_congr (g h : FS) : ∀ paths : List FPath,
    (∀ p ∈ paths, g.lookupFile p = h.lookupFile p) →
    mergeOpenAll g paths = mergeOpenAll h paths := by
  intro paths
  induction paths with
  | nil => intro _; rfl
  | cons p ps ih =>
    intro hp
    simp only [mergeOpenAll, hp p (List.mem_cons_self p ps),
      ih (fun r hr => hp r (List.mem_cons_of_mem p hr))]

theorem pdfName_inj (a b : String) (h : a ++ ".pdf" = b ++ ".pdf") : a = b := by
  have hd : (a ++ ".pdf").data = (b ++ ".pdf").data := congrArg String.data h
  rw [String.data_append, String.data_append] at hd
  have h2 := List.append_cancel_right hd
  cases a
  cases b
  exact congrArg String.mk h2

theorem snoc_inj (work : FPath) (x y : String) (h : work ++ [x] = work ++ [y]) : x = y := by
  have := List.append_cancel_left h
  simpa using this

end PageOrderLemmas

/-- Fixtures for the C3 counterexample: a single extensionless image
attachment literally named `summary`, whose scratch PDF `summary.pdf`
collides with the compiled cover's scratch filename. -/
def c3Enc : Encoder :=
  { encodeQ := fun _ _ _ => 50, encodeD := fun _ _ => 50 }

def c3Env : Env :=
  { runHex := "r", enc := c3Enc, coverPdf := some ([Page.tag "cover" 0], 100),
    savedSize := fun _ => 1000 }

def c3Cfg : OSTicketConfig :=
  { inbox_dir := ["inbox"], work_dir := ["w"], temp_dir := ["tmp"] }

def c3Fs : FS :=
  { dirs := [["inbox", "339"]],
    files := [
      (["inbox", "339", "ticket.json"], { ticket := some ⟨["summary"]⟩ }),
      (["inbox", "339", "summary"], { size := 10, img := some ⟨"RGB", 5, 5⟩ })] }

/-- Claim C3 counterexample: with one image attachment named `summary`, the
scratch PDF `work_dir/summary.pdf` (archiver.py line 516) collides with the
compiled cover `work_dir/summary.pdf` (line 543): the cover overwrites the
compressed attachment, the run still succeeds, and the merged output holds
the cover's page twice instead of cover-then-attachment — so "for every
successful run the pages are exactly the cover's followed by the
attachments' contributions in metadata order" is false. -/
theorem generate_page_order_cex :
    (generate_receipt_pdf c3Env "339" c3Cfg {} none false 800 75 c3Fs).1 =
      .ok ("Ticket 339\n  Source:   inbox/339/\n  Target:   inbox/339.pdf\n" ++
        "  Pages:   2 (1000 B)\n    1    Summary (Typst)\n" ++
        "    2   summary (10 B → 50 B, compressed)") ∧
    pagesOf (generate_receipt_pdf c3Env "339" c3Cfg {} none false 800 75 c3Fs).2
        ["inbox", "339.pdf"] = some [Page.tag "cover" 0, Page.tag "cover" 0] ∧
    [Page.tag "cover" 0, Page.tag "cover" 0] ≠
      [Page.tag "cover" 0] ++
        (["summary"].flatMap (attachmentPages c3Enc 800 75 c3Fs ["inbox", "339"])) :=
  ⟨by rfl, by decide, by decide⟩

section ProcessInvariant

/-- Invariant of the attachment loop: provided the scratch directory does not
shadow any inbox attachment path, a successful pass (a) leaves each
image-routed attachment's scratch PDF in place with its re-encoded page,
(b) touches no path other than the scratch per-attachment PDFs, (c) creates
no directories, (d) produces merge-list entries that are each either an
inbox attachment path or a scratch per-attachment path, and (e) yields a
merge list that opens to exactly the metadata-ordered concatenation of the
attachments' page contributions, computed over the initial filesystem. -/
theorem pa_spec (enc : Encoder) (strings : Strings) (mw q : Nat) (inbox work : FPath) :
    ∀ (names : List String) (fs : FS) (infos : List AttInfo) (descs : List String)
      (paths : List FPath) (fs₁ : FS),
    (∀ nm ∈ names, List.isPrefixOf work (inbox ++ [nm]) = false) →
    processAttachments enc strings mw q inbox work fs names =
      (.ok (infos, descs, paths), fs₁) →
    ((∀ nm e i, nm ∈ names → fs.lookupFile (inbox ++ [nm]) = some e →
        _is_pdf_file nm e = false → _is_image_file nm e = true → e.img = some i →
        fs₁.lookupFile (work ++ [nm ++ ".pdf"]) = some (imageScratchEntry enc mw q e i)) ∧
     (∀ p : FPath, (∀ nm ∈ names, p ≠ work ++ [nm ++ ".pdf"]) →
        fs₁.lookupFile p = fs.lookupFile p) ∧
     fs₁.dirs = fs.dirs ∧
     (∀ p ∈ paths, ∃ nm, nm ∈ names ∧ (p = inbox ++ [nm] ∨ p = work ++ [nm ++ ".pdf"])) ∧
     mergeOpenAll fs₁ paths = .ok (names.flatMap (attachmentPages enc mw q fs inbox))) := by
  intro names
  induction names with
  | nil =>
    intro fs infos descs paths fs₁ hsep hpa
    simp only [processAttachments] at hpa
    injection hpa with h1 h2
    injection h1 with h1
    injection h1 with hinfos h1
    injection h1 with hdescs hpaths
    subst hdescs
    subst hpaths
    subst h2
    refine ⟨?_, ?_, rfl, ?_, rfl⟩
    · intro nm e i hmem
      exact absurd hmem (List.not_mem_nil nm)
    · intro p _
      rfl
    · intro p hp
      exact absurd hp (List.not_mem_nil p)
  | cons nm rest ih =>
    intro fs infos descs paths fs₁ hsep hpa
    have hsep_head := hsep nm (List.mem_cons_self nm rest)
    have hsep_rest : ∀ x ∈ rest, List.isPrefixOf work (inbox ++ [x]) = false :=
      fun x hx => hsep x (List.mem_cons_of_mem nm hx)
    cases hl : fs.lookupFile (inbox ++ [nm]) with
    | none =>
      simp only [processAttachments, hl] at hpa
      obtain ⟨hA, hB, hC, hDm, hD⟩ := ih fs infos descs paths fs₁ hsep_rest hpa
      refine ⟨?_, ?_, hC, ?_, ?_⟩
      · intro nm' e' i' hmem hlk hpdf' himg' hi2
        rcases List.mem_cons.mp hmem with h | h
        · subst h
          rw [hl] at hlk
          exact Option.noConfusion hlk
        · exact hA nm' e' i' h hlk hpdf' himg' hi2
      · intro p hg
        exact hB p (fun x hx => hg x (List.mem_cons_of_mem nm hx))
      · intro p hp
        obtain ⟨x, hx, h⟩ := hDm p hp
        exact ⟨x, List.mem_cons_of_mem nm hx, h⟩
      · rw [List.flatMap_cons,
          show attachmentPages enc mw q fs inbox nm = [] from by
            simp only [attachmentPages, hl],
          List.nil_append]
        exact hD
    | some e =>
      cases hpdf : _is_pdf_file nm e with
      | true =>
        cases hpp : e.pdfPages with
        | none =>
          simp only [processAttachments, hl, hpdf, if_true, hpp] at hpa
          exact absurd (congrArg Prod.fst hpa) (by simp)
        | some pgs =>
          rcases hrec : processAttachments enc strings mw q inbox work fs rest with ⟨res, fs''⟩
          cases res with
          | error er =>
            simp only [processAttachments, hl, hpdf, if_true, hpp, hrec] at hpa
            exact absurd (congrArg Prod.fst hpa) (by simp)
          | ok triple =>
            obtain ⟨infos', descs', paths'⟩ := triple
            simp only [processAttachments, hl, hpdf, if_true, hpp, hrec] at hpa
            injection hpa with h1 h2
            injection h1 with h1
            injection h1 with hinfos h1
            injection h1 with hdescs hpaths
            subst hdescs
            subst hpaths
            subst h2
            obtain ⟨hA, hB, hC, hDm, hD⟩ := ih fs infos' descs' paths' fs'' hsep_rest hrec
            refine ⟨?_, ?_, hC, ?_, ?_⟩
            · intro nm' e' i' hmem hlk hpdf' himg' hi2
              rcases List.mem_cons.mp hmem with h | h
              · subst h
                rw [hl] at hlk
                injection hlk with he
                subst he
                rw [hpdf] at hpdf'
                exact Bool.noConfusion hpdf'
              · exact hA nm' e' i' h hlk hpdf' himg' hi2
            · intro p hg
              exact hB p (fun x hx => hg x (List.mem_cons_of_mem nm hx))
            · intro p hp
              rcases List.mem_cons.mp hp with h | h
              · exact ⟨nm, List.mem_cons_self nm rest, Or.inl h⟩
              · obtain ⟨x, hx, hor⟩ := hDm p h
                exact ⟨x, List.mem_cons_of_mem nm hx, hor⟩
            · have hstable : fs''.lookupFile (inbox ++ [nm]) = some e := by
                rw [hB (inbox ++ [nm])
                  (fun x hx => ne_of_not_isPrefixOf work (inbox ++ [nm]) (x ++ ".pdf") hsep_head)]
                exact hl
              have hap : attachmentPages enc mw q fs inbox nm = pgs := by
                simp only [attachmentPages, hl, hpdf, if_true, hpp, Option.getD_some]
              rw [List.flatMap_cons, hap]
              simp only [mergeOpenAll, hstable, hpp, hD, Except.map]
      | false =>
        cases himg : _is_image_file nm e with
        | false =>
          simp only [processAttachments, hl, hpdf, himg, Bool.false_eq_true, if_false] at hpa
          obtain ⟨hA, hB, hC, hDm, hD⟩ := ih fs infos descs paths fs₁ hsep_rest hpa
          refine ⟨?_, ?_, hC, ?_, ?_⟩
          · intro nm' e' i' hmem hlk hpdf' himg' hi2
            rcases List.mem_cons.mp hmem with h | h
            · subst h
              rw [hl] at hlk
              injection hlk with he
              subst he
              rw [himg] at himg'
              exact Bool.noConfusion himg'
            · exact hA nm' e' i' h hlk hpdf' himg' hi2
          · intro p hg
            exact hB p (fun x hx => hg x (List.mem_cons_of_mem nm hx))
          · intro p hp
            obtain ⟨x, hx, h⟩ := hDm p hp
            exact ⟨x, List.mem_cons_of_mem nm hx, h⟩
          · rw [List.flatMap_cons,
              show attachmentPages enc mw q fs inbox nm = [] from by
                simp only [attachmentPages, hl, hpdf, himg, Bool.false_eq_true, if_false],
              List.nil_append]
            exact hD
        | true =>
          cases hi : e.img with
          | none =>
            have hcomp : compress_image_to_pdf enc fs (inbox ++ [nm])
                (work ++ [nm ++ ".pdf"]) mw q =
                (.error (.unidentifiedImageError (pathStr (inbox ++ [nm]))), fs) := by
              simp only [compress_image_to_pdf, hl, hi]
            simp only [processAttachments, hl, hpdf, himg, Bool.false_eq_true, if_false,
              if_true, hcomp] at hpa
            exact absurd (congrArg Prod.fst hpa) (by simp)
          | some i =>
            have hcomp := compress_image_eq enc fs (inbox ++ [nm])
              (work ++ [nm ++ ".pdf"]) mw q e i hl hi
            rcases hrec : processAttachments enc strings mw q inbox work
                (fs.writeFile (work ++ [nm ++ ".pdf"]) (imageScratchEntry enc mw q e i))
                rest with ⟨res, fs''⟩
            cases res with
            | error er =>
              simp only [processAttachments, hl, hpdf, himg, Bool.false_eq_true, if_false,
                if_true, hcomp, hrec] at hpa
              exact absurd (congrArg Prod.fst hpa) (by simp)
            | ok triple =>
              obtain ⟨infos', descs', paths'⟩ := triple
              simp only [processAttachments, hl, hpdf, himg, Bool.false_eq_true, if_false,
                if_true, hcomp, hrec] at hpa
              injection hpa with h1 h2
              injection h1 with h1
              injection h1 with hinfos h1
              injection h1 with hdescs hpaths
              subst hdescs
              subst hpaths
              subst h2
              obtain ⟨hA, hB, hC, hDm, hD⟩ := ih
                (fs.writeFile (work ++ [nm ++ ".pdf"]) (imageScratchEntry enc mw q e i))
                infos' descs' paths' fs'' hsep_rest hrec
              have hT1 : ∀ x, List.isPrefixOf work (inbox ++ [x]) = false →
                  (fs.writeFile (work ++ [nm ++ ".pdf"])
                    (imageScratchEntry enc mw q e i)).lookupFile (inbox ++ [x]) =
                    fs.lookupFile (inbox ++ [x]) := by
                intro x hx
                exact lookupFile_writeFile_ne fs _ _ _
                  (ne_of_not_isPrefixOf work (inbox ++ [x]) (nm ++ ".pdf") hx)
              have hscr : fs''.lookupFile (work ++ [nm ++ ".pdf"]) =
                  some (imageScratchEntry enc mw q e i) := by
                by_cases hm : nm ∈ rest
                · exact hA nm e i hm (by rw [hT1 nm hsep_head]; exact hl) hpdf himg hi
                · rw [hB (work ++ [nm ++ ".pdf"]) ?_]
                  · exact lookupFile_writeFile_self fs _ _
                  · intro x hx heq
                    have hxy := pdfName_inj nm x (snoc_inj work _ _ heq)
                    rw [hxy] at hm
                    exact hm hx
              refine ⟨?_, ?_, ?_, ?_, ?_⟩
              · intro nm' e' i' hmem hlk hpdf' himg' hi2
                rcases List.mem_cons.mp hmem with h | h
                · subst h
                  rw [hl] at hlk
                  injection hlk with he
                  subst he
                  rw [hi] at hi2
                  injection hi2 with hii
                  subst hii
                  exact hscr
                · exact hA nm' e' i' h (by rw [hT1 nm' (hsep_rest nm' h)]; exact hlk)
                    hpdf' himg' hi2
              · intro p hg
                rw [hB p (fun x hx => hg x (List.mem_cons_of_mem nm hx))]
                exact lookupFile_writeFile_ne fs _ _ _ (hg nm (List.mem_cons_self nm rest))
              · exact hC
              · intro p hp
                rcases List.mem_cons.mp hp with h | h
                · exact ⟨nm, List.mem_cons_self nm rest, Or.inr h⟩
                · obtain ⟨x, hx, hor⟩ := hDm p h
                  exact ⟨x, List.mem_cons_of_mem nm hx, hor⟩
              · have hap : attachmentPages enc mw q fs inbox nm =
                    [Page.image (scratchImage enc mw q e i)] := by
                  simp only [attachmentPages, hl, hpdf, himg, Bool.false_eq_true, if_false,
                    if_true, hi]
                have htail : mergeOpenAll fs'' paths' =
                    .ok (rest.flatMap (attachmentPages enc mw q fs inbox)) := by
                  rw [hD]
                  exact congrArg Except.ok (List.flatMap_congr (fun x hx =>
                    attachmentPages_congr enc mw q _ fs inbox x (hT1 x (hsep_rest x hx))))
                rw [List.flatMap_cons, hap]
                simp only [mergeOpenAll, hscr, imageScratchEntry, htail, Except.map]

end ProcessInvariant


/-- Claim C3 (amended): for every successful generating run of
`generate_receipt_pdf` (one that does not short-circuit on an existing
output), provided the run's scratch directory does not shadow any inbox
attachment path, no attachment's scratch PDF filename collides with the
reserved cover filename `summary.pdf`, and the configured logo's filename
collides with no attachment's scratch PDF filename, the merged output file
holds exactly the compiled cover's pages first, followed by the
attachments' page contributions in ticket-metadata order — where entries
whose underlying file is missing, or which are classified neither PDF nor
image, contribute nothing (skipped silently).  The collision provisos are
forced by the counterexample: without them the cover can overwrite an
attachment's scratch PDF. -/
theorem generate_page_order (env : Env) (tid : String) (cfg : OSTicketConfig)
    (strings : Strings) (out? : Option FPath) (force : Bool) (mw q : Nat) (fs : FS)
    (t : TicketData) (report : String) (fs' : FS)
    (hT : (fs.lookupFile (cfg.inbox_dir ++ [tid] ++ ["ticket.json"])).bind
        (fun e => e.ticket) = some t)
    (hsep : ∀ nm ∈ t.attachments,
      List.isPrefixOf (cfg.temp_dir ++ ["receipt_" ++ tid ++ "_" ++ env.runHex]) (cfg.inbox_dir ++ [tid] ++ [nm]) = false)
    (hname : ∀ nm ∈ t.attachments, nm ++ ".pdf" ≠ "summary.pdf")
    (hlogo : ∀ lp, cfg.logo_path = some lp → ∀ nm ∈ t.attachments,
      lastComponent lp ≠ nm ++ ".pdf")
    (hgen : ¬(fs.existsPath (out?.getD (cfg.inbox_dir ++ [tid ++ ".pdf"])) = true ∧ force = false))
    (hrun : generate_receipt_pdf env tid cfg strings out? force mw q fs = (.ok report, fs')) :
    ∃ cover csz oe, env.coverPdf = some (cover, csz) ∧
      fs'.lookupFile (out?.getD (cfg.inbox_dir ++ [tid ++ ".pdf"])) = some oe ∧
      oe.pdfPages = some (cover ++ (t.attachments.flatMap (attachmentPages env.enc mw q fs (cfg.inbox_dir ++ [tid])))) := by
  cases h1 : fs.existsPath (cfg.inbox_dir ++ [tid]) with
  | false =>
    simp only [generate_receipt_pdf, h1, Bool.not_false, if_true] at hrun
    exact absurd (congrArg Prod.fst hrun) (by simp)
  | true =>
    obtain ⟨ten, hten, htt⟩ := Option.bind_eq_some.mp hT
    have h2 : fs.existsPath (cfg.inbox_dir ++ [tid] ++ ["ticket.json"]) = true := by
      unfold FS.existsPath
      rw [hten]
      exact Bool.or_true _
    have hsc : (fs.existsPath (out?.getD (cfg.inbox_dir ++ [tid ++ ".pdf"])) && !force) = false := by
      cases hf : force
      · have hex : fs.existsPath (out?.getD (cfg.inbox_dir ++ [tid ++ ".pdf"])) = false := by
          cases hex2 : fs.existsPath (out?.getD (cfg.inbox_dir ++ [tid ++ ".pdf"]))
          · rfl
          · rw [hf] at hgen
            exact absurd ⟨hex2, rfl⟩ hgen
        rw [hex]
        rfl
      · simp
    simp only [generate_receipt_pdf, h1, h2, hT, hsc, Bool.not_true, if_false,
      Bool.false_eq_true] at hrun
    rcases hpa : processAttachments env.enc strings mw q (cfg.inbox_dir ++ [tid]) (cfg.temp_dir ++ ["receipt_" ++ tid ++ "_" ++ env.runHex])
        ((fs.mkdir (List.dropLast (out?.getD (cfg.inbox_dir ++ [tid ++ ".pdf"])))).mkdir (cfg.temp_dir ++ ["receipt_" ++ tid ++ "_" ++ env.runHex])) t.attachments with ⟨res, fs1⟩
    cases res with
    | error er =>
      simp only [hpa] at hrun
      exact absurd (congrArg Prod.fst hrun) (by simp)
    | ok triple =>
      obtain ⟨infos, descs, apaths⟩ := triple
      simp only [hpa] at hrun
      obtain ⟨hA, hB, hC, hDm, hD⟩ :=
        pa_spec env.enc strings mw q (cfg.inbox_dir ++ [tid]) (cfg.temp_dir ++ ["receipt_" ++ tid ++ "_" ++ env.runHex]) t.attachments
          ((fs.mkdir (List.dropLast (out?.getD (cfg.inbox_dir ++ [tid ++ ".pdf"])))).mkdir (cfg.temp_dir ++ ["receipt_" ++ tid ++ "_" ++ env.runHex])) infos descs apaths fs1 hsep hpa
      have hflat : t.attachments.flatMap
          (attachmentPages env.enc mw q ((fs.mkdir (List.dropLast (out?.getD (cfg.inbox_dir ++ [tid ++ ".pdf"])))).mkdir (cfg.temp_dir ++ ["receipt_" ++ tid ++ "_" ++ env.runHex])) (cfg.inbox_dir ++ [tid])) = (t.attachments.flatMap (attachmentPages env.enc mw q fs (cfg.inbox_dir ++ [tid]))) :=
        List.flatMap_congr (fun x _ => attachmentPages_congr env.enc mw q _ fs (cfg.inbox_dir ++ [tid]) x rfl)
      have hne_sum : ∀ p ∈ apaths, p ≠ ((cfg.temp_dir ++ ["receipt_" ++ tid ++ "_" ++ env.runHex]) ++ ["summary.pdf"]) := by
        intro p hp heq
        obtain ⟨nm0, hnm0, hor⟩ := hDm p hp
        rcases hor with h | h
        · exact ne_of_not_isPrefixOf _ _ "summary.pdf" (hsep nm0 hnm0) (h ▸ heq)
        · exact hname nm0 hnm0 (snoc_inj _ _ _ (h ▸ heq))
      rcases hcov : env.coverPdf with _ | ⟨cover, csz⟩
      · simp only [hcov] at hrun
        exact absurd (congrArg Prod.fst hrun) (by simp)
      · simp only [hcov] at hrun
        cases hlp : cfg.logo_path with
        | none =>
          simp only [hlp] at hrun
          have hstab2 : ∀ p ∈ apaths, (fs1).lookupFile p = fs1.lookupFile p := by
            intro p _
            rfl
          have hS : ((fs1).writeFile ((cfg.temp_dir ++ ["receipt_" ++ tid ++ "_" ++ env.runHex]) ++ ["summary.pdf"]) ({ size := csz, img := none, pdfMagic := true, pdfPages := some cover, ticket := none } : FileEntry)).lookupFile ((cfg.temp_dir ++ ["receipt_" ++ tid ++ "_" ++ env.runHex]) ++ ["summary.pdf"]) = some ({ size := csz, img := none, pdfMagic := true, pdfPages := some cover, ticket := none } : FileEntry) := lookupFile_writeFile_self _ _ _
          have htl : mergeOpenAll ((fs1).writeFile ((cfg.temp_dir ++ ["receipt_" ++ tid ++ "_" ++ env.runHex]) ++ ["summary.pdf"]) ({ size := csz, img := none, pdfMagic := true, pdfPages := some cover, ticket := none } : FileEntry)) apaths = mergeOpenAll fs1 apaths := by
            refine mergeOpenAll_congr _ _ apaths ?_
            intro p hp
            exact (lookupFile_writeFile_ne _ _ _ _ (hne_sum p hp)).trans (hstab2 p hp)
          have hopen : mergeOpenAll ((fs1).writeFile ((cfg.temp_dir ++ ["receipt_" ++ tid ++ "_" ++ env.runHex]) ++ ["summary.pdf"]) ({ size := csz, img := none, pdfMagic := true, pdfPages := some cover, ticket := none } : FileEntry)) (((cfg.temp_dir ++ ["receipt_" ++ tid ++ "_" ++ env.runHex]) ++ ["summary.pdf"]) :: apaths) = .ok (cover ++ (t.attachments.flatMap (attachmentPages env.enc mw q fs (cfg.inbox_dir ++ [tid])))) := by
            simp only [mergeOpenAll, hS, htl, hD, hflat, Except.map]
          have hmerge : merge_pdfs env.savedSize ((fs1).writeFile ((cfg.temp_dir ++ ["receipt_" ++ tid ++ "_" ++ env.runHex]) ++ ["summary.pdf"]) ({ size := csz, img := none, pdfMagic := true, pdfPages := some cover, ticket := none } : FileEntry)) (((cfg.temp_dir ++ ["receipt_" ++ tid ++ "_" ++ env.runHex]) ++ ["summary.pdf"]) :: apaths) (out?.getD (cfg.inbox_dir ++ [tid ++ ".pdf"])) = (.ok (cover ++ (t.attachments.flatMap (attachmentPages env.enc mw q fs (cfg.inbox_dir ++ [tid])))).length, ((fs1).writeFile ((cfg.temp_dir ++ ["receipt_" ++ tid ++ "_" ++ env.runHex]) ++ ["summary.pdf"]) ({ size := csz, img := none, pdfMagic := true, pdfPages := some cover, ticket := none } : FileEntry)).writeFile (out?.getD (cfg.inbox_dir ++ [tid ++ ".pdf"])) ({ size := env.savedSize (cover ++ (t.attachments.flatMap (attachmentPages env.enc mw q fs (cfg.inbox_dir ++ [tid])))), img := none, pdfMagic := true, pdfPages := some (cover ++ (t.attachments.flatMap (attachmentPages env.enc mw q fs (cfg.inbox_dir ++ [tid])))), ticket := none } : FileEntry)) := by
            simp only [merge_pdfs, hopen]
          simp only [hmerge] at hrun
          cases hpre : List.isPrefixOf (cfg.temp_dir ++ ["receipt_" ++ tid ++ "_" ++ env.runHex]) (out?.getD (cfg.inbox_dir ++ [tid ++ ".pdf"])) with
          | true =>
            simp only [lookupFile_removeSubtree_under _ _ _ hpre] at hrun
            exact absurd (congrArg Prod.fst hrun) (by simp)
          | false =>
            have hlook : (((((fs1).writeFile ((cfg.temp_dir ++ ["receipt_" ++ tid ++ "_" ++ env.runHex]) ++ ["summary.pdf"]) ({ size := csz, img := none, pdfMagic := true, pdfPages := some cover, ticket := none } : FileEntry)).writeFile (out?.getD (cfg.inbox_dir ++ [tid ++ ".pdf"])) ({ size := env.savedSize (cover ++ (t.attachments.flatMap (attachmentPages env.enc mw q fs (cfg.inbox_dir ++ [tid])))), img := none, pdfMagic := true, pdfPages := some (cover ++ (t.attachments.flatMap (attachmentPages env.enc mw q fs (cfg.inbox_dir ++ [tid])))), ticket := none } : FileEntry)).removeSubtree (cfg.temp_dir ++ ["receipt_" ++ tid ++ "_" ++ env.runHex])).lookupFile (out?.getD (cfg.inbox_dir ++ [tid ++ ".pdf"]))) = some ({ size := env.savedSize (cover ++ (t.attachments.flatMap (attachmentPages env.enc mw q fs (cfg.inbox_dir ++ [tid])))), img := none, pdfMagic := true, pdfPages := some (cover ++ (t.attachments.flatMap (attachmentPages env.enc mw q fs (cfg.inbox_dir ++ [tid])))), ticket := none } : FileEntry) := by
              rw [lookupFile_removeSubtree_outside _ _ _ hpre, lookupFile_writeFile_self]
            simp only [hlook] at hrun
            injection hrun with hrep hfs
            refine ⟨cover, csz, ({ size := env.savedSize (cover ++ (t.attachments.flatMap (attachmentPages env.enc mw q fs (cfg.inbox_dir ++ [tid])))), img := none, pdfMagic := true, pdfPages := some (cover ++ (t.attachments.flatMap (attachmentPages env.enc mw q fs (cfg.inbox_dir ++ [tid])))), ticket := none } : FileEntry), rfl, ?_, rfl⟩
            rw [← hfs]
            exact hlook
        | some lp =>
          cases hex : fs1.existsPath lp with
          | false =>
            simp only [hlp, hex, Bool.false_eq_true, if_false] at hrun
            have hstab2 : ∀ p ∈ apaths, (fs1).lookupFile p = fs1.lookupFile p := by
              intro p _
              rfl
            have hS : ((fs1).writeFile ((cfg.temp_dir ++ ["receipt_" ++ tid ++ "_" ++ env.runHex]) ++ ["summary.pdf"]) ({ size := csz, img := none, pdfMagic := true, pdfPages := some cover, ticket := none } : FileEntry)).lookupFile ((cfg.temp_dir ++ ["receipt_" ++ tid ++ "_" ++ env.runHex]) ++ ["summary.pdf"]) = some ({ size := csz, img := none, pdfMagic := true, pdfPages := some cover, ticket := none } : FileEntry) := lookupFile_writeFile_self _ _ _
            have htl : mergeOpenAll ((fs1).writeFile ((cfg.temp_dir ++ ["receipt_" ++ tid ++ "_" ++ env.runHex]) ++ ["summary.pdf"]) ({ size := csz, img := none, pdfMagic := true, pdfPages := some cover, ticket := none } : FileEntry)) apaths = mergeOpenAll fs1 apaths := by
              refine mergeOpenAll_congr _ _ apaths ?_
              intro p hp
              exact (lookupFile_writeFile_ne _ _ _ _ (hne_sum p hp)).trans (hstab2 p hp)
            have hopen : mergeOpenAll ((fs1).writeFile ((cfg.temp_dir ++ ["receipt_" ++ tid ++ "_" ++ env.runHex]) ++ ["summary.pdf"]) ({ size := csz, img := none, pdfMagic := true, pdfPages := some cover, ticket := none } : FileEntry)) (((cfg.temp_dir ++ ["receipt_" ++ tid ++ "_" ++ env.runHex]) ++ ["summary.pdf"]) :: apaths) = .ok (cover ++ (t.attachments.flatMap (attachmentPages env.enc mw q fs (cfg.inbox_dir ++ [tid])))) := by
              simp only [mergeOpenAll, hS, htl, hD, hflat, Except.map]
            have hmerge : merge_pdfs env.savedSize ((fs1).writeFile ((cfg.temp_dir ++ ["receipt_" ++ tid ++ "_" ++ env.runHex]) ++ ["summary.pdf"]) ({ size := csz, img := none, pdfMagic := true, pdfPages := some cover, ticket := none } : FileEntry)) (((cfg.temp_dir ++ ["receipt_" ++ tid ++ "_" ++ env.runHex]) ++ ["summary.pdf"]) :: apaths) (out?.getD (cfg.inbox_dir ++ [tid ++ ".pdf"])) = (.ok (cover ++ (t.attachments.flatMap (attachmentPages env.enc mw q fs (cfg.inbox_dir ++ [tid])))).length, ((fs1).writeFile ((cfg.temp_dir ++ ["receipt_" ++ tid ++ "_" ++ env.runHex]) ++ ["summary.pdf"]) ({ size := csz, img := none, pdfMagic := true, pdfPages := some cover, ticket := none } : FileEntry)).writeFile (out?.getD (cfg.inbox_dir ++ [tid ++ ".pdf"])) ({ size := env.savedSize (cover ++ (t.attachments.flatMap (attachmentPages env.enc mw q fs (cfg.inbox_dir ++ [tid])))), img := none, pdfMagic := true, pdfPages := some (cover ++ (t.attachments.flatMap (attachmentPages env.enc mw q fs (cfg.inbox_dir ++ [tid])))), ticket := none } : FileEntry)) := by
              simp only [merge_pdfs, hopen]
            simp only [hmerge] at hrun
            cases hpre : List.isPrefixOf (cfg.temp_dir ++ ["receipt_" ++ tid ++ "_" ++ env.runHex]) (out?.getD (cfg.inbox_dir ++ [tid ++ ".pdf"])) with
            | true =>
              simp only [lookupFile_removeSubtree_under _ _ _ hpre] at hrun
              exact absurd (congrArg Prod.fst hrun) (by simp)
            | false =>
              have hlook : (((((fs1).writeFile ((cfg.temp_dir ++ ["receipt_" ++ tid ++ "_" ++ env.runHex]) ++ ["summary.pdf"]) ({ size := csz, img := none, pdfMagic := true, pdfPages := some cover, ticket := none } : FileEntry)).writeFile (out?.getD (cfg.inbox_dir ++ [tid ++ ".pdf"])) ({ size := env.savedSize (cover ++ (t.attachments.flatMap (attachmentPages env.enc mw q fs (cfg.inbox_dir ++ [tid])))), img := none, pdfMagic := true, pdfPages := some (cover ++ (t.attachments.flatMap (attachmentPages env.enc mw q fs (cfg.inbox_dir ++ [tid])))), ticket := none } : FileEntry)).removeSubtree (cfg.temp_dir ++ ["receipt_" ++ tid ++ "_" ++ env.runHex])).lookupFile (out?.getD (cfg.inbox_dir ++ [tid ++ ".pdf"]))) = some ({ size := env.savedSize (cover ++ (t.attachments.flatMap (attachmentPages env.enc mw q fs (cfg.inbox_dir ++ [tid])))), img := none, pdfMagic := true, pdfPages := some (cover ++ (t.attachments.flatMap (attachmentPages env.enc mw q fs (cfg.inbox_dir ++ [tid])))), ticket := none } : FileEntry) := by
                rw [lookupFile_removeSubtree_outside _ _ _ hpre, lookupFile_writeFile_self]
              simp only [hlook] at hrun
              injection hrun with hrep hfs
              refine ⟨cover, csz, ({ size := env.savedSize (cover ++ (t.attachments.flatMap (attachmentPages env.enc mw q fs (cfg.inbox_dir ++ [tid])))), img := none, pdfMagic := true, pdfPages := some (cover ++ (t.attachments.flatMap (attachmentPages env.enc mw q fs (cfg.inbox_dir ++ [tid])))), ticket := none } : FileEntry), rfl, ?_, rfl⟩
              rw [← hfs]
              exact hlook
          | true =>
            cases hle : fs1.lookupFile lp with
            | none =>
              simp only [hlp, hex, if_true, hle] at hrun
              have hstab2 : ∀ p ∈ apaths, (fs1).lookupFile p = fs1.lookupFile p := by
                intro p _
                rfl
              have hS : ((fs1).writeFile ((cfg.temp_dir ++ ["receipt_" ++ tid ++ "_" ++ env.runHex]) ++ ["summary.pdf"]) ({ size := csz, img := none, pdfMagic := true, pdfPages := some cover, ticket := none } : FileEntry)).lookupFile ((cfg.temp_dir ++ ["receipt_" ++ tid ++ "_" ++ env.runHex]) ++ ["summary.pdf"]) = some ({ size := csz, img := none, pdfMagic := true, pdfPages := some cover, ticket := none } : FileEntry) := lookupFile_writeFile_self _ _ _
              have htl : mergeOpenAll ((fs1).writeFile ((cfg.temp_dir ++ ["receipt_" ++ tid ++ "_" ++ env.runHex]) ++ ["summary.pdf"]) ({ size := csz, img := none, pdfMagic := true, pdfPages := some cover, ticket := none } : FileEntry)) apaths = mergeOpenAll fs1 apaths := by
                refine mergeOpenAll_congr _ _ apaths ?_
                intro p hp
                exact (lookupFile_writeFile_ne _ _ _ _ (hne_sum p hp)).trans (hstab2 p hp)
              have hopen : mergeOpenAll ((fs1).writeFile ((cfg.temp_dir ++ ["receipt_" ++ tid ++ "_" ++ env.runHex]) ++ ["summary.pdf"]) ({ size := csz, img := none, pdfMagic := true, pdfPages := some cover, ticket := none } : FileEntry)) (((cfg.temp_dir ++ ["receipt_" ++ tid ++ "_" ++ env.runHex]) ++ ["summary.pdf"]) :: apaths) = .ok (cover ++ (t.attachments.flatMap (attachmentPages env.enc mw q fs (cfg.inbox_dir ++ [tid])))) := by
                simp only [mergeOpenAll, hS, htl, hD, hflat, Except.map]
              have hmerge : merge_pdfs env.savedSize ((fs1).writeFile ((cfg.temp_dir ++ ["receipt_" ++ tid ++ "_" ++ env.runHex]) ++ ["summary.pdf"]) ({ size := csz, img := none, pdfMagic := true, pdfPages := some cover, ticket := none } : FileEntry)) (((cfg.temp_dir ++ ["receipt_" ++ tid ++ "_" ++ env.runHex]) ++ ["summary.pdf"]) :: apaths) (out?.getD (cfg.inbox_dir ++ [tid ++ ".pdf"])) = (.ok (cover ++ (t.attachments.flatMap (attachmentPages env.enc mw q fs (cfg.inbox_dir ++ [tid])))).length, ((fs1).writeFile ((cfg.temp_dir ++ ["receipt_" ++ tid ++ "_" ++ env.runHex]) ++ ["summary.pdf"]) ({ size := csz, img := none, pdfMagic := true, pdfPages := some cover, ticket := none } : FileEntry)).writeFile (out?.getD (cfg.inbox_dir ++ [tid ++ ".pdf"])) ({ size := env.savedSize (cover ++ (t.attachments.flatMap (attachmentPages env.enc mw q fs (cfg.inbox_dir ++ [tid])))), img := none, pdfMagic := true, pdfPages := some (cover ++ (t.attachments.flatMap (attachmentPages env.enc mw q fs (cfg.inbox_dir ++ [tid])))), ticket := none } : FileEntry)) := by
                simp only [merge_pdfs, hopen]
              simp only [hmerge] at hrun
              cases hpre : List.isPrefixOf (cfg.temp_dir ++ ["receipt_" ++ tid ++ "_" ++ env.runHex]) (out?.getD (cfg.inbox_dir ++ [tid ++ ".pdf"])) with
              | true =>
                simp only [lookupFile_removeSubtree_under _ _ _ hpre] at hrun
                exact absurd (congrArg Prod.fst hrun) (by simp)
              | false =>
                have hlook : (((((fs1).writeFile ((cfg.temp_dir ++ ["receipt_" ++ tid ++ "_" ++ env.runHex]) ++ ["summary.pdf"]) ({ size := csz, img := none, pdfMagic := true, pdfPages := some cover, ticket := none } : FileEntry)).writeFile (out?.getD (cfg.inbox_dir ++ [tid ++ ".pdf"])) ({ size := env.savedSize (cover ++ (t.attachments.flatMap (attachmentPages env.enc mw q fs (cfg.inbox_dir ++ [tid])))), img := none, pdfMagic := true, pdfPages := some (cover ++ (t.attachments.flatMap (attachmentPages env.enc mw q fs (cfg.inbox_dir ++ [tid])))), ticket := none } : FileEntry)).removeSubtree (cfg.temp_dir ++ ["receipt_" ++ tid ++ "_" ++ env.runHex])).lookupFile (out?.getD (cfg.inbox_dir ++ [tid ++ ".pdf"]))) = some ({ size := env.savedSize (cover ++ (t.attachments.flatMap (attachmentPages env.enc mw q fs (cfg.inbox_dir ++ [tid])))), img := none, pdfMagic := true, pdfPages := some (cover ++ (t.attachments.flatMap (attachmentPages env.enc mw q fs (cfg.inbox_dir ++ [tid])))), ticket := none } : FileEntry) := by
                  rw [lookupFile_removeSubtree_outside _ _ _ hpre, lookupFile_writeFile_self]
                simp only [hlook] at hrun
                injection hrun with hrep hfs
                refine ⟨cover, csz, ({ size := env.savedSize (cover ++ (t.attachments.flatMap (attachmentPages env.enc mw q fs (cfg.inbox_dir ++ [tid])))), img := none, pdfMagic := true, pdfPages := some (cover ++ (t.attachments.flatMap (attachmentPages env.enc mw q fs (cfg.inbox_dir ++ [tid])))), ticket := none } : FileEntry), rfl, ?_, rfl⟩
                rw [← hfs]
                exact hlook
            | some le =>
              simp only [hlp, hex, if_true, hle] at hrun
              have hstab2 : ∀ p ∈ apaths, (fs1.writeFile ((cfg.temp_dir ++ ["receipt_" ++ tid ++ "_" ++ env.runHex]) ++ [lastComponent lp]) le).lookupFile p = fs1.lookupFile p := by
                intro p hp
                refine lookupFile_writeFile_ne _ _ _ _ ?_
                intro heq
                obtain ⟨nm0, hnm0, hor⟩ := hDm p hp
                rcases hor with h | h
                · exact ne_of_not_isPrefixOf _ _ (lastComponent lp) (hsep nm0 hnm0) (h ▸ heq)
                · exact hlogo lp hlp nm0 hnm0 ((snoc_inj _ _ _ (h ▸ heq)).symm)
              have hS : ((fs1.writeFile ((cfg.temp_dir ++ ["receipt_" ++ tid ++ "_" ++ env.runHex]) ++ [lastComponent lp]) le).writeFile ((cfg.temp_dir ++ ["receipt_" ++ tid ++ "_" ++ env.runHex]) ++ ["summary.pdf"]) ({ size := csz, img := none, pdfMagic := true, pdfPages := some cover, ticket := none } : FileEntry)).lookupFile ((cfg.temp_dir ++ ["receipt_" ++ tid ++ "_" ++ env.runHex]) ++ ["summary.pdf"]) = some ({ size := csz, img := none, pdfMagic := true, pdfPages := some cover, ticket := none } : FileEntry) := lookupFile_writeFile_self _ _ _
              have htl : mergeOpenAll ((fs1.writeFile ((cfg.temp_dir ++ ["receipt_" ++ tid ++ "_" ++ env.runHex]) ++ [lastComponent lp]) le).writeFile ((cfg.temp_dir ++ ["receipt_" ++ tid ++ "_" ++ env.runHex]) ++ ["summary.pdf"]) ({ size := csz, img := none, pdfMagic := true, pdfPages := some cover, ticket := none } : FileEntry)) apaths = mergeOpenAll fs1 apaths := by
                refine mergeOpenAll_congr _ _ apaths ?_
                intro p hp
                exact (lookupFile_writeFile_ne _ _ _ _ (hne_sum p hp)).trans (hstab2 p hp)
              have hopen : mergeOpenAll ((fs1.writeFile ((cfg.temp_dir ++ ["receipt_" ++ tid ++ "_" ++ env.runHex]) ++ [lastComponent lp]) le).writeFile ((cfg.temp_dir ++ ["receipt_" ++ tid ++ "_" ++ env.runHex]) ++ ["summary.pdf"]) ({ size := csz, img := none, pdfMagic := true, pdfPages := some cover, ticket := none } : FileEntry)) (((cfg.temp_dir ++ ["receipt_" ++ tid ++ "_" ++ env.runHex]) ++ ["summary.pdf"]) :: apaths) = .ok (cover ++ (t.attachments.flatMap (attachmentPages env.enc mw q fs (cfg.inbox_dir ++ [tid])))) := by
                simp only [mergeOpenAll, hS, htl, hD, hflat, Except.map]
              have hmerge : merge_pdfs env.savedSize ((fs1.writeFile ((cfg.temp_dir ++ ["receipt_" ++ tid ++ "_" ++ env.runHex]) ++ [lastComponent lp]) le).writeFile ((cfg.temp_dir ++ ["receipt_" ++ tid ++ "_" ++ env.runHex]) ++ ["summary.pdf"]) ({ size := csz, img := none, pdfMagic := true, pdfPages := some cover, ticket := none } : FileEntry)) (((cfg.temp_dir ++ ["receipt_" ++ tid ++ "_" ++ env.runHex]) ++ ["summary.pdf"]) :: apaths) (out?.getD (cfg.inbox_dir ++ [tid ++ ".pdf"])) = (.ok (cover ++ (t.attachments.flatMap (attachmentPages env.enc mw q fs (cfg.inbox_dir ++ [tid])))).length, ((fs1.writeFile ((cfg.temp_dir ++ ["receipt_" ++ tid ++ "_" ++ env.runHex]) ++ [lastComponent lp]) le).writeFile ((cfg.temp_dir ++ ["receipt_" ++ tid ++ "_" ++ env.runHex]) ++ ["summary.pdf"]) ({ size := csz, img := none, pdfMagic := true, pdfPages := some cover, ticket := none } : FileEntry)).writeFile (out?.getD (cfg.inbox_dir ++ [tid ++ ".pdf"])) ({ size := env.savedSize (cover ++ (t.attachments.flatMap (attachmentPages env.enc mw q fs (cfg.inbox_dir ++ [tid])))), img := none, pdfMagic := true, pdfPages := some (cover ++ (t.attachments.flatMap (attachmentPages env.enc mw q fs (cfg.inbox_dir ++ [tid])))), ticket := none } : FileEntry)) := by
                simp only [merge_pdfs, hopen]
              simp only [hmerge] at hrun
              cases hpre : List.isPrefixOf (cfg.temp_dir ++ ["receipt_" ++ tid ++ "_" ++ env.runHex]) (out?.getD (cfg.inbox_dir ++ [tid ++ ".pdf"])) with
              | true =>
                simp only [lookupFile_removeSubtree_under _ _ _ hpre] at hrun
                exact absurd (congrArg Prod.fst hrun) (by simp)
              | false =>
                have hlook : (((((fs1.writeFile ((cfg.temp_dir ++ ["receipt_" ++ tid ++ "_" ++ env.runHex]) ++ [lastComponent lp]) le).writeFile ((cfg.temp_dir ++ ["receipt_" ++ tid ++ "_" ++ env.runHex]) ++ ["summary.pdf"]) ({ size := csz, img := none, pdfMagic := true, pdfPages := some cover, ticket := none } : FileEntry)).writeFile (out?.getD (cfg.inbox_dir ++ [tid ++ ".pdf"])) ({ size := env.savedSize (cover ++ (t.attachments.flatMap (attachmentPages env.enc mw q fs (cfg.inbox_dir ++ [tid])))), img := none, pdfMagic := true, pdfPages := some (cover ++ (t.attachments.flatMap (attachmentPages env.enc mw q fs (cfg.inbox_dir ++ [tid])))), ticket := none } : FileEntry)).removeSubtree (cfg.temp_dir ++ ["receipt_" ++ tid ++ "_" ++ env.runHex])).lookupFile (out?.getD (cfg.inbox_dir ++ [tid ++ ".pdf"]))) = some ({ size := env.savedSize (cover ++ (t.attachments.flatMap (attachmentPages env.enc mw q fs (cfg.inbox_dir ++ [tid])))), img := none, pdfMagic := true, pdfPages := some (cover ++ (t.attachments.flatMap (attachmentPages env.enc mw q fs (cfg.inbox_dir ++ [tid])))), ticket := none } : FileEntry) := by
                  rw [lookupFile_removeSubtree_outside _ _ _ hpre, lookupFile_writeFile_self]
                simp only [hlook] at hrun
                injection hrun with hrep hfs
                refine ⟨cover, csz, ({ size := env.savedSize (cover ++ (t.attachments.flatMap (attachmentPages env.enc mw q fs (cfg.inbox_dir ++ [tid])))), img := none, pdfMagic := true, pdfPages := some (cover ++ (t.attachments.flatMap (attachmentPages env.enc mw q fs (cfg.inbox_dir ++ [tid])))), ticket := none } : FileEntry), rfl, ?_, rfl⟩
                rw [← hfs]
                exact hlook

/-- Fixtures for the C3 amended witness: ticket `7` with one pass-through
PDF attachment. -/
def c3wEnv : Env :=
  { runHex := "r", enc := { encodeQ := fun _ _ _ => 5, encodeD := fun _ _ => 5 },
    coverPdf := some ([Page.tag "cov" 0], 10), savedSize := fun _ => 20 }

def c3wCfg : OSTicketConfig :=
  { inbox_dir := ["inbox"], work_dir := ["w"], temp_dir := ["tmp"] }

def c3wFs : FS :=
  { dirs := [["inbox", "7"]],
    files := [
      (["inbox", "7", "ticket.json"], { ticket := some ⟨["a.pdf"]⟩ }),
      (["inbox", "7", "a.pdf"], { size := 100, pdfPages := some [Page.tag "a" 0] })] }

def c3wFsFinal : FS :=
  { dirs := [["inbox"], ["inbox", "7"]],
    files := [
      (["inbox", "7.pdf"],
        { size := 20, img := none, pdfMagic := true,
          pdfPages := some [Page.tag "cov" 0, Page.tag "a" 0], ticket := none }),
      (["inbox", "7", "ticket.json"],
        { size := 0, img := none, pdfMagic := false, pdfPages := none,
          ticket := some ⟨["a.pdf"]⟩ }),
      (["inbox", "7", "a.pdf"],
        { size := 100, img := none, pdfMagic := false,
          pdfPages := some [Page.tag "a" 0], ticket := none })] }

def c3wReport : String :=
  "Ticket 7\n  Source:   inbox/7/\n  Target:   inbox/7.pdf\n  Pages:   2 (20 B)\n" ++
    "    1    Summary (Typst)\n    2   a.pdf (100 B, original, 1 p.)"

/-- Witness for the amended C3 at a concrete successful run. -/
theorem generate_page_order_witness :
    ((c3wFs.lookupFile (c3wCfg.inbox_dir ++ ["7"] ++ ["ticket.json"])).bind
      (fun e => e.ticket) = some ⟨["a.pdf"]⟩) ∧
    (∀ nm ∈ (⟨["a.pdf"]⟩ : TicketData).attachments,
      List.isPrefixOf (c3wCfg.temp_dir ++ ["receipt_" ++ "7" ++ "_" ++ c3wEnv.runHex])
        (c3wCfg.inbox_dir ++ ["7"] ++ [nm]) = false) ∧
    (∀ nm ∈ (⟨["a.pdf"]⟩ : TicketData).attachments, nm ++ ".pdf" ≠ "summary.pdf") ∧
    (∀ lp, c3wCfg.logo_path = some lp → ∀ nm ∈ (⟨["a.pdf"]⟩ : TicketData).attachments,
      lastComponent lp ≠ nm ++ ".pdf") ∧
    (¬(c3wFs.existsPath ((none : Option FPath).getD
        (c3wCfg.inbox_dir ++ ["7" ++ ".pdf"])) = true ∧ false = false)) ∧
    (generate_receipt_pdf c3wEnv "7" c3wCfg {} none false 800 75 c3wFs =
      (.ok c3wReport, c3wFsFinal)) ∧
    (∃ cover csz oe, c3wEnv.coverPdf = some (cover, csz) ∧
      c3wFsFinal.lookupFile ((none : Option FPath).getD
        (c3wCfg.inbox_dir ++ ["7" ++ ".pdf"])) = some oe ∧
      oe.pdfPages = some (cover ++ (⟨["a.pdf"]⟩ : TicketData).attachments.flatMap
        (attachmentPages c3wEnv.enc 800 75 c3wFs (c3wCfg.inbox_dir ++ ["7"])))) :=
  ⟨by decide, by decide, by decide, fun lp h => Option.noConfusion h,
   by intro h; exact absurd h.1 (by decide), by rfl,
   generate_page_order c3wEnv "7" c3wCfg {} none false 800 75 c3wFs ⟨["a.pdf"]⟩
     c3wReport c3wFsFinal (by decide) (by decide) (by decide)
     (fun lp h => Option.noConfusion h)
     (by intro h; exact absurd h.1 (by decide)) (by rfl)⟩

end OTH
